import Mathlib

/-!
Shallow embedding of the lazy arc-map engine, union and intersection of a
weighted finite-state transducer library, with proofs about them.  The
definitions follow src/include/fst/arc-map.h, union.h, intersect.h and
expanded-fst.h; collaborators living outside those files (the cache store,
the property-bit layout, symbol tables, the composition primitive) are
modelled from the specification and say so in their doc comments.
-/

set_option linter.unusedSectionVars false

namespace OpenFst

/-- State identifiers are C++ ints; kNoStateId (-1) denotes absence of a
state (no start state, or the synthetic next-state marker of a final-weight
pseudo-arc). -/
def kNoStateId : Int := -1

/-- Minimal weight interface the arc-map and union algorithms use: Zero(),
One() and (decidable) equality.  No other semiring operation occurs in the
embedded code.  zero_ne_one records nontriviality of the semiring, needed to
distinguish final from non-final states. -/
structure Wops (V : Type) where
  zero : V
  one : V
  zero_ne_one : zero ≠ one

/-- Arc: (input label, output label, weight, next state); label 0 is the
epsilon label. -/
structure Arc (V : Type) where
  ilabel : Int
  olabel : Int
  weight : V
  nextstate : Int
deriving DecidableEq

/-! Property bitmask.  Modelled from the spec: fst/properties.h is not under
src/, and the algorithms only need the identities of a handful of bits
(error, acceptor, initial-acyclic, the two binary bits, and one stand-in bit
for the remaining cached structural facts), so each gets a distinct bit; the
masks are assembled from them the way the library assembles its masks.  The
exact numeric values are immaterial to every claim. -/

def kExpanded : Nat := 1

def kMutable : Nat := 2

def kError : Nat := 4

def kAcceptor : Nat := 8

def kInitialAcyclic : Nat := 16

/-- Stand-in bit for the remaining trinary structural properties. -/
def kResidualProperties : Nat := 32

def kAllProperties : Nat := 63

/-- Properties an empty (null) FST satisfies. -/
def kNullProperties : Nat := kAcceptor ||| kInitialAcyclic ||| kResidualProperties

/-- Properties that survive copying an automaton (excludes the binary
expanded/mutable bits). -/
def kCopyProperties : Nat := kError ||| kAcceptor ||| kInitialAcyclic ||| kResidualProperties

/-- Mask of all FST properties. -/
def kFstProperties : Nat := kAllProperties

/-- Modelled from the spec: FstImpl::SetProperties(props, mask) (fst.h is not
under src/): bits inside mask are overwritten with the corresponding bits of
props, bits outside mask are kept, and the error bit is sticky: once set it
is never cleared (spec section 7). -/
def setPropsMask (p np mask : Nat) : Nat :=
  (p &&& ((kAllProperties ^^^ (mask &&& kAllProperties)) ||| kError)) ||| (np &&& mask)

/-- Modelled from the spec: CompatSymbols (symbol-table.h is not under src/):
two declared symbol tables are compatible when either is absent or both are
the same table.  Tables are abstracted to an identifier, which is all the
compatibility check inspects. -/
def CompatSymbols (a b : Option Nat) : Bool :=
  match a, b with
  | none, _ => true
  | _, none => true
  | some x, some y => x == y

/-- Materialized automaton: the MutableFst/VectorFst storage contract the
embedded algorithms rely on (start state, per-state final weight and out-arc
list in insertion order, property mask, declared symbol tables). -/
structure FstM (V : Type) where
  start : Int
  states : List (V × List (Arc V))
  props : Nat
  isyms : Option Nat
  osyms : Option Nat
deriving DecidableEq

namespace FstM

variable {V : Type} [DecidableEq V]

def numStates (f : FstM V) : Nat := f.states.length

/-- Lookup of a state record; invalid identifiers give none (the C++
contract requires a valid id). -/
def stateAt (f : FstM V) (s : Int) : Option (V × List (Arc V)) :=
  if s < 0 then none else f.states[s.toNat]?

/-- Final(s); Zero() for an invalid state id. -/
def finalW (wo : Wops V) (f : FstM V) (s : Int) : V :=
  ((f.stateAt s).map Prod.fst).getD wo.zero

/-- Out-arc list of a state, in insertion order. -/
def arcsOf (f : FstM V) (s : Int) : List (Arc V) :=
  ((f.stateAt s).map Prod.snd).getD []

/-- AddState: appends a fresh non-final state and returns its id. -/
def addState (wo : Wops V) (f : FstM V) : FstM V × Int :=
  ({ f with states := f.states ++ [(wo.zero, [])] }, (f.states.length : Int))

/-- SetFinal(s, w); an invalid id leaves the automaton unchanged (undefined
behaviour in the C++ contract). -/
def setFinal (f : FstM V) (s : Int) (w : V) : FstM V :=
  if s < 0 then f
  else
    match f.states[s.toNat]? with
    | none => f
    | some st => { f with states := f.states.set s.toNat (w, st.2) }

/-- AddArc(s, a): appends a to the out-arc list of s. -/
def addArc (f : FstM V) (s : Int) (a : Arc V) : FstM V :=
  if s < 0 then f
  else
    match f.states[s.toNat]? with
    | none => f
    | some st => { f with states := f.states.set s.toNat (st.1, st.2 ++ [a]) }

/-- MutableArcIterator pass mapping every arc of s in place. -/
def mapArcsAt (f : FstM V) (s : Int) (g : Arc V → Arc V) : FstM V :=
  if s < 0 then f
  else
    match f.states[s.toNat]? with
    | none => f
    | some st => { f with states := f.states.set s.toNat (st.1, st.2.map g) }

def setStart (f : FstM V) (s : Int) : FstM V := { f with start := s }

/-- Two-argument SetProperties with sticky error bit. -/
def setProps (f : FstM V) (np mask : Nat) : FstM V :=
  { f with props := setPropsMask f.props np mask }

/-- Whole automaton well-formedness: the start state, when present, is a real
state, and every arc leads to a real state. -/
def WF (f : FstM V) : Prop :=
  (f.start = kNoStateId ∨ (0 ≤ f.start ∧ f.start < (f.numStates : Int))) ∧
  ∀ st ∈ f.states, ∀ a ∈ st.2, 0 ≤ a.nextstate ∧ a.nextstate < (f.numStates : Int)

instance (f : FstM V) : Decidable f.WF := by
  unfold WF; infer_instance

/-- Total number of arcs (CountArcs of expanded-fst.h). -/
def CountArcs (f : FstM V) : Nat :=
  (f.states.map (fun st => st.2.length)).sum

end FstM

/-! Union (union.h). -/

/-- Modelled from the spec: UnionProperties (properties.h is not under src/),
the fixed property combinator of spec section 4.6: the error bit propagates
from either operand, acceptor-ness survives only if both operands were
acceptors, and the remaining structural facts likewise need both sides. -/
def UnionProperties (p1 p2 : Nat) : Nat :=
  ((p1 ||| p2) &&& kError) ||| (p1 &&& p2 &&& (kAcceptor ||| kResidualProperties))

variable {V : Type} [DecidableEq V]

/-- Loop body of Union (union.h lines 78-88): append one state of fst2 to
fst1, copying its final weight and its arcs with next states shifted by
fst1's pre-union state count. -/
def unionAppendStep (wo : Wops V) (fst2 : FstM V) (numstates1 : Nat)
    (f : FstM V) (s2 : Nat) : FstM V :=
  let p := f.addState wo
  let f1 := p.1.setFinal p.2 (fst2.finalW wo (s2 : Int))
  (fst2.arcsOf (s2 : Int)).foldl
    (fun g a => g.addArc p.2 { a with nextstate := a.nextstate + (numstates1 : Int) }) f1

/-- Union(MutableFst, Fst) (union.h lines 55-104), the eager in-place
union. -/
def Union (wo : Wops V) (fst1 : FstM V) (fst2 : FstM V) : FstM V :=
  if ¬ ((CompatSymbols fst1.isyms fst2.isyms) = true ∧
        (CompatSymbols fst1.osyms fst2.osyms) = true) then
    fst1.setProps kError kError
  else
    let numstates1 := fst1.numStates
    let initialAcyclic1 := fst1.props &&& kInitialAcyclic == kInitialAcyclic
    let props1 := fst1.props &&& kFstProperties
    let props2 := fst2.props &&& kFstProperties
    let start2 := fst2.start
    if start2 = kNoStateId then
      (if props2 &&& kError ≠ 0 then fst1.setProps kError kError else fst1)
    else
      let f := (List.range fst2.numStates).foldl (unionAppendStep wo fst2 numstates1) fst1
      let start1 := f.start
      if start1 = kNoStateId then
        (f.setStart start2).setProps props2 kCopyProperties
      else
        let f :=
          if initialAcyclic1 then
            f.addArc start1 (Arc.mk 0 0 wo.one (start2 + (numstates1 : Int)))
          else
            let q := f.addState wo
            (((q.1.setStart q.2).addArc q.2 (Arc.mk 0 0 wo.one start1)).addArc q.2
              (Arc.mk 0 0 wo.one (start2 + (numstates1 : Int))))
        f.setProps (UnionProperties props1 props2) kFstProperties

/-! Intersection (intersect.h). -/

/-- Properties(kAcceptor, true): whether every arc has equal input and output
labels, computed structurally (the property-computation machinery lives
outside src/; the stored bit is a cache of exactly this fact). -/
def isAcceptorB (f : FstM V) : Bool :=
  f.states.all (fun st => st.2.all (fun a => a.ilabel == a.olabel))

/-- Modelled from the spec: the property mask with which the external
composition primitive (compose.h, not under src/) constructs its delayed
result; composition is out of scope (spec section 1) and the intersection
wrapper uses it only as a constructed, queryable automaton, so only its
error bit matters here: it propagates an input error. -/
def composeBaseProps (fst1 fst2 : FstM V) : Nat :=
  (fst1.props ||| fst2.props) &&& kError

/-- IntersectFst construction (intersect.h lines 83-104): builds the
composition base, then checks that both inputs are acceptors and on
violation overwrites the properties with the error bit via the one-argument
SetProperties.  The function returns the property mask of the constructed
automaton; construction is total (no abort). -/
def IntersectFstProps (fst1 fst2 : FstM V) : Nat :=
  let base := composeBaseProps fst1 fst2
  if isAcceptorB fst1 && isAcceptorB fst2 then base else kError

/-! Arc mapping (arc-map.h). -/

/-- MapFinalAction (arc-map.h lines 50-62): how final weights are mapped. -/
inductive MapFinalAction
  | MAP_NO_SUPERFINAL
  | MAP_ALLOW_SUPERFINAL
  | MAP_REQUIRE_SUPERFINAL
deriving DecidableEq

export MapFinalAction (MAP_NO_SUPERFINAL MAP_ALLOW_SUPERFINAL MAP_REQUIRE_SUPERFINAL)

/-- MapSymbolsAction (arc-map.h lines 65-73). -/
inductive MapSymbolsAction
  | MAP_CLEAR_SYMBOLS
  | MAP_COPY_SYMBOLS
  | MAP_NOOP_SYMBOLS
deriving DecidableEq

export MapSymbolsAction (MAP_CLEAR_SYMBOLS MAP_COPY_SYMBOLS MAP_NOOP_SYMBOLS)

/-- ArcMapper policy contract (arc-map.h lines 86-117), embedded for mappers
whose operator() returns an arc with the same nextstate as its argument and
whose output labels and weight are a function of the input labels, the input
weight, and whether the argument is the final-weight pseudo-arc (nextstate =
kNoStateId) - the shape of every mapper defined in arc-map.h.  mapLabels
returns (ilabel, olabel, weight).  propsFn is the mapper's Properties
function on property masks. -/
structure ArcMapper (V : Type) where
  mapLabels : Int → Int → V → Bool → Int × Int × V
  finalAction : MapFinalAction
  isymsAction : MapSymbolsAction
  osymsAction : MapSymbolsAction
  propsFn : Nat → Nat

/-- Application of a mapper's operator() to an arc. -/
def applyMapper (m : ArcMapper V) (a : Arc V) : Arc V :=
  let r := m.mapLabels a.ilabel a.olabel a.weight (a.nextstate == kNoStateId)
  ⟨r.1, r.2.1, r.2.2, a.nextstate⟩

/-- Final-weight pseudo-arc of a state, Arc(0, 0, Final(s), kNoStateId),
as handed to the mapper by all map variants. -/
def pseudoArc (wo : Wops V) (f : FstM V) (s : Int) : Arc V :=
  ⟨0, 0, f.finalW wo s, kNoStateId⟩

/-- Mapper output for the final-weight pseudo-arc of state s. -/
def mappedFinalArc (wo : Wops V) (m : ArcMapper V) (f : FstM V) (s : Int) : Arc V :=
  applyMapper m (pseudoArc wo f s)

/-- Whether the mapped final pseudo-arc of s carries a non-epsilon label. -/
def finalTriggerB (wo : Wops V) (m : ArcMapper V) (f : FstM V) (s : Int) : Bool :=
  (mappedFinalArc wo m f s).ilabel != 0 || (mappedFinalArc wo m f s).olabel != 0

/-- Condition under which MAP_REQUIRE_SUPERFINAL emits a superfinal arc for
state s: non-epsilon labels or non-Zero mapped weight. -/
def requireArcB (wo : Wops V) (m : ArcMapper V) (f : FstM V) (s : Int) : Bool :=
  (mappedFinalArc wo m f s).ilabel != 0 || (mappedFinalArc wo m f s).olabel != 0 ||
    decide ((mappedFinalArc wo m f s).weight ≠ wo.zero)

/-- Symbol table of a freshly written output automaton after the copying
ArcMap's symbol action (the output starts from DeleteStates, hence empty). -/
def symsFresh (act : MapSymbolsAction) (src : Option Nat) : Option Nat :=
  match act with
  | MAP_COPY_SYMBOLS => src
  | MAP_CLEAR_SYMBOLS => none
  | MAP_NOOP_SYMBOLS => none

/-- Loop body of the copying ArcMap (arc-map.h lines 254-300) for source
state s.  The fold state carries the output automaton and the current
superfinal id (kNoStateId when absent). -/
def ArcMapCopyStep (wo : Wops V) (m : ArcMapper V) (ifst : FstM V)
    (st : FstM V × Int) (s : Nat) : FstM V × Int :=
  let o := st.1
  let superfinal := st.2
  let o := if (s : Int) = ifst.start then o.setStart (s : Int) else o
  let o := (ifst.arcsOf (s : Int)).foldl (fun g a => g.addArc (s : Int) (applyMapper m a)) o
  match m.finalAction with
  | MAP_NO_SUPERFINAL =>
    let fa := mappedFinalArc wo m ifst (s : Int)
    let o := if fa.ilabel ≠ 0 ∨ fa.olabel ≠ 0 then o.setProps kError kError else o
    (o.setFinal (s : Int) fa.weight, superfinal)
  | MAP_ALLOW_SUPERFINAL =>
    let fa := mappedFinalArc wo m ifst (s : Int)
    if fa.ilabel ≠ 0 ∨ fa.olabel ≠ 0 then
      let q : FstM V × Int :=
        if superfinal = kNoStateId then
          let p := o.addState wo
          (p.1.setFinal p.2 wo.one, p.2)
        else (o, superfinal)
      ((q.1.addArc (s : Int) { fa with nextstate := q.2 }).setFinal (s : Int) wo.zero, q.2)
    else (o.setFinal (s : Int) fa.weight, superfinal)
  | MAP_REQUIRE_SUPERFINAL =>
    let fa := mappedFinalArc wo m ifst (s : Int)
    let o := if fa.ilabel ≠ 0 ∨ fa.olabel ≠ 0 ∨ fa.weight ≠ wo.zero then
        o.addArc (s : Int) ⟨fa.ilabel, fa.olabel, fa.weight, superfinal⟩
      else o
    (o.setFinal (s : Int) wo.zero, superfinal)

/-- Copying ArcMap (arc-map.h lines 221-303): writes the mapped input FST to
a fresh output MutableFst (the destination's states are deleted first, so we
build from an empty automaton whose symbol tables follow the mapper's symbol
actions). -/
def ArcMapCopy (wo : Wops V) (m : ArcMapper V) (ifst : FstM V) : FstM V :=
  let o0 : FstM V :=
    ⟨kNoStateId, [], 0, symsFresh m.isymsAction ifst.isyms, symsFresh m.osymsAction ifst.osyms⟩
  let iprops := ifst.props &&& kCopyProperties
  if ifst.start = kNoStateId then
    (if iprops &&& kError ≠ 0 then o0.setProps kError kError else o0)
  else
    let o : FstM V := { o0 with states := List.replicate ifst.numStates (wo.zero, []) }
    let q : FstM V × Int :=
      if m.finalAction = MAP_REQUIRE_SUPERFINAL then
        let p := o.addState wo
        (p.1.setFinal p.2 wo.one, p.2)
      else (o, kNoStateId)
    let r := (List.range ifst.numStates).foldl (ArcMapCopyStep wo m ifst) q
    let oprops := r.1.props &&& kFstProperties
    r.1.setProps (m.propsFn iprops ||| oprops) kFstProperties

/-- Loop body of the in-place ArcMap (arc-map.h lines 153-206) for state s of
the (mutating) automaton; the fold state carries the automaton and the
current superfinal id. -/
def ArcMapInPlaceStep (wo : Wops V) (m : ArcMapper V)
    (st : FstM V × Int) (s : Nat) : FstM V × Int :=
  let f := st.1
  let superfinal := st.2
  let f := f.mapArcsAt (s : Int) (applyMapper m)
  match m.finalAction with
  | MAP_NO_SUPERFINAL =>
    let fa := mappedFinalArc wo m f (s : Int)
    let f := if fa.ilabel ≠ 0 ∨ fa.olabel ≠ 0 then f.setProps kError kError else f
    (f.setFinal (s : Int) fa.weight, superfinal)
  | MAP_ALLOW_SUPERFINAL =>
    if (s : Int) = superfinal then (f, superfinal)
    else
      let fa := mappedFinalArc wo m f (s : Int)
      if fa.ilabel ≠ 0 ∨ fa.olabel ≠ 0 then
        let q : FstM V × Int :=
          if superfinal = kNoStateId then
            let p := f.addState wo
            (p.1.setFinal p.2 wo.one, p.2)
          else (f, superfinal)
        ((q.1.addArc (s : Int) { fa with nextstate := q.2 }).setFinal (s : Int) wo.zero, q.2)
      else (f.setFinal (s : Int) fa.weight, superfinal)
  | MAP_REQUIRE_SUPERFINAL =>
    if (s : Int) = superfinal then (f, superfinal)
    else
      let fa := mappedFinalArc wo m f (s : Int)
      let f := if fa.ilabel ≠ 0 ∨ fa.olabel ≠ 0 ∨ fa.weight ≠ wo.zero then
          f.addArc (s : Int) ⟨fa.ilabel, fa.olabel, fa.weight, superfinal⟩
        else f
      (f.setFinal (s : Int) wo.zero, superfinal)

/-- In-place ArcMap (arc-map.h lines 134-208): mutates its MutableFst input.
Under MAP_REQUIRE_SUPERFINAL the superfinal state is added before the state
loop, so the loop covers it; under MAP_ALLOW_SUPERFINAL a superfinal state
added during the loop extends the iteration by that one state, which the
loop body leaves untouched. -/
def ArcMapInPlace (wo : Wops V) (m : ArcMapper V) (fst0 : FstM V) : FstM V :=
  let f : FstM V :=
    { fst0 with
      isyms := if m.isymsAction = MAP_CLEAR_SYMBOLS then none else fst0.isyms,
      osyms := if m.osymsAction = MAP_CLEAR_SYMBOLS then none else fst0.osyms }
  if f.start = kNoStateId then f
  else
    let props := f.props &&& kFstProperties
    let q : FstM V × Int :=
      if m.finalAction = MAP_REQUIRE_SUPERFINAL then
        let p := f.addState wo
        (p.1.setFinal p.2 wo.one, p.2)
      else (f, kNoStateId)
    let n := q.1.numStates
    let r := (List.range n).foldl (ArcMapInPlaceStep wo m) q
    let r :=
      if m.finalAction = MAP_ALLOW_SUPERFINAL ∧ r.2 ≠ kNoStateId then
        ArcMapInPlaceStep wo m r r.2.toNat
      else r
    r.1.setProps (m.propsFn props) kFstProperties

/-! Delayed ArcMapFst (arc-map.h lines 360-754).  The cache store
(fst/cache.h) is not under src/; its discipline is modelled from the spec:
per-state final weight and arc list are resolved at most once, memoized, and
never invalidated for the lifetime of the wrapper (spec sections 4.5, 5).
The caches are total maps from state id to an optional resolved value. -/

/-- ArcMapFstImpl::FindIState (arc-map.h lines 578-585): output state to
input state. -/
def FindIState (superfinal : Int) (s : Int) : Int :=
  if superfinal = kNoStateId ∨ s < superfinal then s else s - 1

/-- Renumbering part of ArcMapFstImpl::FindOState: input state to output
state. -/
def FindOStatePure (superfinal : Int) (is : Int) : Int :=
  if superfinal = kNoStateId ∨ is < superfinal then is else is + 1

/-- ArcMapFstImpl::FindOState (arc-map.h lines 587-593): input state to
output state, also growing the discovered-state count nstates.  Returns
(output id, new nstates). -/
def FindOState (superfinal : Int) (nstates : Int) (is : Int) :
    Int × Int :=
  let os := FindOStatePure superfinal is
  (os, if nstates ≤ os then os + 1 else nstates)

/-- State of an ArcMapFstImpl: the copied source, the mapper, the final
action fixed by Init, the superfinal id and discovered-state count, the
cached start, and the per-state caches.  calls counts invocations of the
mapper's operator() by this wrapper, instrumenting the memoization
contract. -/
structure ArcMapFstImpl (V : Type) where
  src : FstM V
  m : ArcMapper V
  finalAction : MapFinalAction
  superfinal : Int
  nstates : Int
  hasStart : Bool
  cstart : Int
  props : Nat
  isyms : Option Nat
  osyms : Option Nat
  finalsC : Int → Option V
  arcsC : Int → Option (List (Arc V))
  calls : Nat

namespace ArcMapFstImpl

variable {V : Type} [DecidableEq V]

def HasFinal (i : ArcMapFstImpl V) (s : Int) : Bool := (i.finalsC s).isSome

def HasArcs (i : ArcMapFstImpl V) (s : Int) : Bool := (i.arcsC s).isSome

def cachedFinal (wo : Wops V) (i : ArcMapFstImpl V) (s : Int) : V :=
  (i.finalsC s).getD wo.zero

def cachedArcs (i : ArcMapFstImpl V) (s : Int) : List (Arc V) :=
  (i.arcsC s).getD []

def setFinalC (i : ArcMapFstImpl V) (s : Int) (w : V) : ArcMapFstImpl V :=
  { i with finalsC := fun x => if x = s then some w else i.finalsC x }

def setArcsC (i : ArcMapFstImpl V) (s : Int) (l : List (Arc V)) : ArcMapFstImpl V :=
  { i with arcsC := fun x => if x = s then some l else i.arcsC x }

def setPropsI (i : ArcMapFstImpl V) (np mask : Nat) : ArcMapFstImpl V :=
  { i with props := setPropsMask i.props np mask }

def bumpCalls (i : ArcMapFstImpl V) : ArcMapFstImpl V := { i with calls := i.calls + 1 }

/-- ArcMapFstImpl::Init (arc-map.h lines 555-576): fixes symbol tables, the
effective final action (forced to MAP_NO_SUPERFINAL when the source has no
start state, in which case the null-FST property mask is installed), the
initial property mask, and pins the superfinal at index 0 under
MAP_REQUIRE_SUPERFINAL. -/
def init (m : ArcMapper V) (fst : FstM V) : ArcMapFstImpl V :=
  let isyms := symsFresh m.isymsAction fst.isyms
  let osyms := symsFresh m.osymsAction fst.osyms
  if fst.start = kNoStateId then
    { src := fst, m := m, finalAction := MAP_NO_SUPERFINAL, superfinal := kNoStateId,
      nstates := 0, hasStart := false, cstart := kNoStateId, props := kNullProperties,
      isyms := isyms, osyms := osyms,
      finalsC := fun _ => none, arcsC := fun _ => none, calls := 0 }
  else
    { src := fst, m := m, finalAction := m.finalAction,
      superfinal := if m.finalAction = MAP_REQUIRE_SUPERFINAL then 0 else kNoStateId,
      nstates := 0, hasStart := false, cstart := kNoStateId,
      props := m.propsFn (fst.props &&& kCopyProperties),
      isyms := isyms, osyms := osyms,
      finalsC := fun _ => none, arcsC := fun _ => none, calls := 0 }

/-- ArcMapFstImpl::Start (arc-map.h lines 426-429). -/
def startOp (i : ArcMapFstImpl V) : ArcMapFstImpl V :=
  if i.hasStart then i
  else
    let r := FindOState i.superfinal i.nstates i.src.start
    { i with hasStart := true, cstart := r.1, nstates := r.2 }

/-- ArcMapFstImpl::Final (arc-map.h lines 431-466): resolves and memoizes the
final weight of output state s. -/
def finalOp (wo : Wops V) (i : ArcMapFstImpl V) (s : Int) : ArcMapFstImpl V :=
  if i.HasFinal s then i
  else
    match i.finalAction with
    | MAP_NO_SUPERFINAL =>
      let fa := mappedFinalArc wo i.m i.src (FindIState i.superfinal s)
      let i := i.bumpCalls
      let i := if fa.ilabel ≠ 0 ∨ fa.olabel ≠ 0 then i.setPropsI kError kError else i
      i.setFinalC s fa.weight
    | MAP_ALLOW_SUPERFINAL =>
      if s = i.superfinal then i.setFinalC s wo.one
      else
        let fa := mappedFinalArc wo i.m i.src (FindIState i.superfinal s)
        let i := i.bumpCalls
        if fa.ilabel = 0 ∧ fa.olabel = 0 then i.setFinalC s fa.weight
        else i.setFinalC s wo.zero
    | MAP_REQUIRE_SUPERFINAL =>
      i.setFinalC s (if s = i.superfinal then wo.one else wo.zero)

/-- ArcMapFstImpl::Expand (arc-map.h lines 510-552): maps every source
out-arc of the input state corresponding to s (renumbering its next state
through the bijection first), then evaluates the final-action switch for a
possible superfinal arc, and memoizes the arc list. -/
def expandOp (wo : Wops V) (i : ArcMapFstImpl V) (s : Int) : ArcMapFstImpl V :=
  if s = i.superfinal then i.setArcsC s []
  else
    let isrc := FindIState i.superfinal s
    let p := (i.src.arcsOf isrc).foldl
      (fun (p : ArcMapFstImpl V × List (Arc V)) a =>
        let r := FindOState p.1.superfinal p.1.nstates a.nextstate
        (bumpCalls { p.1 with nstates := r.2 },
         p.2 ++ [applyMapper p.1.m { a with nextstate := r.1 }]))
      (i, [])
    let i := p.1
    let acc := p.2
    let q : ArcMapFstImpl V × List (Arc V) :=
      if ¬ i.HasFinal s ∨ cachedFinal wo i s = wo.zero then
        match i.finalAction with
        | MAP_NO_SUPERFINAL => (i, acc)
        | MAP_ALLOW_SUPERFINAL =>
          let fa := mappedFinalArc wo i.m i.src isrc
          let i := i.bumpCalls
          if fa.ilabel ≠ 0 ∨ fa.olabel ≠ 0 then
            let r : ArcMapFstImpl V × Int :=
              if i.superfinal = kNoStateId then
                ({ i with superfinal := i.nstates, nstates := i.nstates + 1 }, i.nstates)
              else (i, i.superfinal)
            (r.1, acc ++ [{ fa with nextstate := r.2 }])
          else (i, acc)
        | MAP_REQUIRE_SUPERFINAL =>
          let fa := mappedFinalArc wo i.m i.src isrc
          let i := i.bumpCalls
          if fa.ilabel ≠ 0 ∨ fa.olabel ≠ 0 ∨ fa.weight ≠ wo.zero then
            (i, acc ++ [⟨fa.ilabel, fa.olabel, fa.weight, i.superfinal⟩])
          else (i, acc)
      else (i, acc)
    q.1.setArcsC s q.2

/-- ArcIterator over an ArcMapFst state (arc-map.h lines 742-746): expands
the state on first access, then reads the cached arc list.  Returns the arcs
and the impl after the read. -/
def readArcs (wo : Wops V) (i : ArcMapFstImpl V) (s : Int) :
    List (Arc V) × ArcMapFstImpl V :=
  if i.HasArcs s then (i.cachedArcs s, i)
  else
    let j := expandOp wo i s
    (j.cachedArcs s, j)

/-- Number of wrapper states enumerated by a full StateIterator pass
(arc-map.h lines 681-730): the source's states, plus one when the iterator's
superfinal flag fires - always under MAP_REQUIRE_SUPERFINAL, and under
MAP_ALLOW_SUPERFINAL exactly when some source state's mapped final
pseudo-arc carries a non-epsilon label. -/
def numVisits (wo : Wops V) (m : ArcMapper V) (fst : FstM V)
    (fa : MapFinalAction) : Nat :=
  fst.numStates +
    (match fa with
     | MAP_REQUIRE_SUPERFINAL => 1
     | MAP_ALLOW_SUPERFINAL =>
       if (List.range fst.numStates).any (fun s => finalTriggerB wo m fst (s : Int))
       then 1 else 0
     | MAP_NO_SUPERFINAL => 0)

/-- Full expansion of the wrapper: resolve the start state, then visit every
wrapper state in StateIterator order, expanding its arcs and resolving its
final weight. -/
def expandAll (wo : Wops V) (m : ArcMapper V) (fst : FstM V) : ArcMapFstImpl V :=
  let i := startOp (init m fst)
  (List.range (numVisits wo m fst i.finalAction)).foldl
    (fun i (s : Nat) => finalOp wo (expandOp wo i (s : Int)) (s : Int)) i

/-- The automaton exposed by a fully expanded wrapper: its start state and,
for each visited state, the memoized final weight and arc list. -/
def lazyFst (wo : Wops V) (m : ArcMapper V) (fst : FstM V) : FstM V :=
  let i := expandAll wo m fst
  { start := i.cstart,
    states := (List.range (numVisits wo m fst i.finalAction)).map
      (fun (s : Nat) => (cachedFinal wo i (s : Int), i.cachedArcs (s : Int))),
    props := i.props, isyms := i.isyms, osyms := i.osyms }

end ArcMapFstImpl

/-- Index correspondence between the fully expanded lazy wrapper and the
eager copying algorithm: under MAP_REQUIRE_SUPERFINAL the lazy wrapper pins
the superfinal state at index 0 and shifts every copied state up by one,
while the eager algorithm appends the superfinal after the n copied states;
otherwise indices agree. -/
def superfinalShift (fa : MapFinalAction) (n : Nat) (o : Int) : Int :=
  if fa = MAP_REQUIRE_SUPERFINAL then (if o = 0 then (n : Int) else o - 1) else o

/-! Concrete fixtures used to evaluate the development on explicit inputs. -/

/-- Weights instantiated at Nat with Zero() = 0 and One() = 1. -/
def natW : Wops Nat := ⟨0, 1, by decide⟩

/-- Identity mapper (IdentityArcMapper, arc-map.h lines 795-814). -/
def idMapper : ArcMapper Nat :=
  ⟨fun i o w _ => (i, o, w), MAP_NO_SUPERFINAL, MAP_COPY_SYMBOLS, MAP_COPY_SYMBOLS, id⟩

/-- A MAP_ALLOW_SUPERFINAL policy that maps the final pseudo-arc of weight 2
to labels (1, 1) and leaves everything else unchanged; final weights other
than 2 stay epsilon-labelled.  FromGallicMapper-style behaviour. -/
def allowMapper : ArcMapper Nat :=
  ⟨fun i o w p => if p && (w == 2) then (1, 1, w) else (i, o, w),
   MAP_ALLOW_SUPERFINAL, MAP_COPY_SYMBOLS, MAP_COPY_SYMBOLS, id⟩

/-- A MAP_REQUIRE_SUPERFINAL identity-on-arcs policy (SuperFinalMapper with
final label 0, arc-map.h lines 870-914). -/
def requireMapper : ArcMapper Nat :=
  ⟨fun i o w _ => (i, o, w), MAP_REQUIRE_SUPERFINAL, MAP_COPY_SYMBOLS, MAP_COPY_SYMBOLS, id⟩

/-- Two arcless states, start 0, final weights 1 and 2. -/
def fstTwoFinals : FstM Nat := ⟨0, [(1, []), (2, [])], 0, none, none⟩

/-- One state carrying final weight 1, but no start state. -/
def fstStartless : FstM Nat := ⟨-1, [(1, [])], 0, none, none⟩

/-- Two states with a cycle: 0 -(5:6/3)-> 1, 1 -(2:2/4)-> 0, state 1 final
with weight 7, start 0. -/
def fstCycle : FstM Nat :=
  ⟨0, [(0, [⟨5, 6, 3, 1⟩]), (7, [⟨2, 2, 4, 0⟩])], 0, none, none⟩

/-- Single state, start and final (weight 1), one self loop 1:1/1. -/
def fstLoop : FstM Nat := ⟨0, [(1, [⟨1, 1, 1, 0⟩])], 0, none, none⟩

/-- Single state, start 0, final weight 1, no arcs, marked initial-acyclic. -/
def fstAcyclicOne : FstM Nat := ⟨0, [(1, [])], kInitialAcyclic, none, none⟩

/-- Single state, start 0, final weight 1, no arcs, no property bits. -/
def fstPlainOne : FstM Nat := ⟨0, [(1, [])], 0, none, none⟩

/-- One-state startless automaton with final weight 0. -/
def fstDeadState : FstM Nat := ⟨-1, [(0, [])], 0, none, none⟩

/-- The genuinely empty automaton: no states, no start. -/
def fstEmpty : FstM Nat := ⟨-1, [], 0, none, none⟩

/-- Acceptor-violating single state: one arc with ilabel 1, olabel 2. -/
def fstNonAcceptor : FstM Nat := ⟨0, [(1, [⟨1, 2, 1, 0⟩])], 0, none, none⟩

/-- One state with declared input symbol table 5. -/
def fstSymsFive : FstM Nat := ⟨0, [(1, [])], 0, some 5, none⟩

/-- One state with declared input symbol table 7. -/
def fstSymsSeven : FstM Nat := ⟨0, [(0, [])], 0, some 7, none⟩

/-- A MAP_NO_SUPERFINAL policy that maps the final pseudo-arc of weight 1 to
labels (1, 1): a contract violation under the no-superfinal final action. -/
def badNoSuperfinalMapper : ArcMapper Nat :=
  ⟨fun i o w p => if p && (w == 1) then (1, 1, w) else (i, o, w),
   MAP_NO_SUPERFINAL, MAP_COPY_SYMBOLS, MAP_COPY_SYMBOLS, id⟩

/-! Basic lemmas: the error bit, the mutation primitives, fold helpers. -/

section BasicLemmas

variable {V : Type} [DecidableEq V]

lemma kError_eq_pow : kError = 2 ^ 2 := by norm_num [kError]

lemma kError_testBit2 : kError.testBit 2 = true := by decide

lemma errBit_iff (n : Nat) : n &&& kError ≠ 0 ↔ n.testBit 2 = true := by
  rw [kError_eq_pow, Nat.and_two_pow]
  cases hb : n.testBit 2 <;> simp

lemma setPropsMask_testBit2 (p np mask : Nat) :
    (setPropsMask p np mask).testBit 2 =
      (p.testBit 2 || (np.testBit 2 && mask.testBit 2)) := by
  unfold setPropsMask
  simp [Nat.testBit_or, Nat.testBit_and, kError_testBit2]

namespace FstM

variable (f : FstM V) (s t : Int) (w : V) (a : Arc V) (np mask : Nat) (wo : Wops V)

@[simp] lemma setStart_states : (f.setStart t).states = f.states := rfl

@[simp] lemma setStart_start : (f.setStart t).start = t := rfl

@[simp] lemma setStart_props : (f.setStart t).props = f.props := rfl

@[simp] lemma setProps_states : (f.setProps np mask).states = f.states := rfl

@[simp] lemma setProps_start : (f.setProps np mask).start = f.start := rfl

@[simp] lemma setProps_props : (f.setProps np mask).props = setPropsMask f.props np mask := rfl

@[simp] lemma addState_fst_states : (f.addState wo).1.states = f.states ++ [(wo.zero, [])] := rfl

@[simp] lemma addState_snd : (f.addState wo).2 = (f.states.length : Int) := rfl

@[simp] lemma addState_fst_start : (f.addState wo).1.start = f.start := rfl

@[simp] lemma addState_fst_props : (f.addState wo).1.props = f.props := rfl

@[simp] lemma setFinal_start : (f.setFinal s w).start = f.start := by
  unfold setFinal
  split
  · rfl
  · split <;> rfl

@[simp] lemma setFinal_props : (f.setFinal s w).props = f.props := by
  unfold setFinal
  split
  · rfl
  · split <;> rfl

@[simp] lemma setFinal_length : (f.setFinal s w).states.length = f.states.length := by
  unfold setFinal
  split
  · rfl
  · split
    · rfl
    · simp

@[simp] lemma addArc_start : (f.addArc s a).start = f.start := by
  unfold addArc
  split
  · rfl
  · split <;> rfl

@[simp] lemma addArc_props : (f.addArc s a).props = f.props := by
  unfold addArc
  split
  · rfl
  · split <;> rfl

@[simp] lemma addArc_length : (f.addArc s a).states.length = f.states.length := by
  unfold addArc
  split
  · rfl
  · split
    · rfl
    · simp

@[simp] lemma mapArcsAt_start (g : Arc V → Arc V) : (f.mapArcsAt s g).start = f.start := by
  unfold mapArcsAt
  split
  · rfl
  · split <;> rfl

@[simp] lemma mapArcsAt_props (g : Arc V → Arc V) : (f.mapArcsAt s g).props = f.props := by
  unfold mapArcsAt
  split
  · rfl
  · split <;> rfl

@[simp] lemma mapArcsAt_length (g : Arc V → Arc V) :
    (f.mapArcsAt s g).states.length = f.states.length := by
  unfold mapArcsAt
  split
  · rfl
  · split
    · rfl
    · simp

@[simp] lemma setStart_isyms : (f.setStart t).isyms = f.isyms := rfl

@[simp] lemma setStart_osyms : (f.setStart t).osyms = f.osyms := rfl

@[simp] lemma setProps_isyms : (f.setProps np mask).isyms = f.isyms := rfl

@[simp] lemma setProps_osyms : (f.setProps np mask).osyms = f.osyms := rfl

@[simp] lemma addState_fst_isyms : (f.addState wo).1.isyms = f.isyms := rfl

@[simp] lemma addState_fst_osyms : (f.addState wo).1.osyms = f.osyms := rfl

@[simp] lemma setFinal_isyms : (f.setFinal s w).isyms = f.isyms := by
  unfold setFinal
  split
  · rfl
  · split <;> rfl

@[simp] lemma setFinal_osyms : (f.setFinal s w).osyms = f.osyms := by
  unfold setFinal
  split
  · rfl
  · split <;> rfl

@[simp] lemma addArc_isyms : (f.addArc s a).isyms = f.isyms := by
  unfold addArc
  split
  · rfl
  · split <;> rfl

@[simp] lemma addArc_osyms : (f.addArc s a).osyms = f.osyms := by
  unfold addArc
  split
  · rfl
  · split <;> rfl

@[simp] lemma mapArcsAt_isyms (g : Arc V → Arc V) : (f.mapArcsAt s g).isyms = f.isyms := by
  unfold mapArcsAt
  split
  · rfl
  · split <;> rfl

@[simp] lemma mapArcsAt_osyms (g : Arc V → Arc V) : (f.mapArcsAt s g).osyms = f.osyms := by
  unfold mapArcsAt
  split
  · rfl
  · split <;> rfl

lemma setFinal_states_eq (sn : Nat) (w2 : V) (as : List (Arc V))
    (h : f.states[sn]? = some (w2, as)) :
    (f.setFinal (sn : Int) w).states = f.states.set sn (w, as) := by
  unfold setFinal
  rw [if_neg (by omega : ¬ ((sn : Int) < 0))]
  simp only [Int.toNat_ofNat, h]

lemma addArc_states_eq (sn : Nat) (w2 : V) (as : List (Arc V))
    (h : f.states[sn]? = some (w2, as)) :
    (f.addArc (sn : Int) a).states = f.states.set sn (w2, as ++ [a]) := by
  unfold addArc
  rw [if_neg (by omega : ¬ ((sn : Int) < 0))]
  simp only [Int.toNat_ofNat, h]

lemma mapArcsAt_states_eq (sn : Nat) (w2 : V) (as : List (Arc V)) (g : Arc V → Arc V)
    (h : f.states[sn]? = some (w2, as)) :
    (f.mapArcsAt (sn : Int) g).states = f.states.set sn (w2, as.map g) := by
  unfold mapArcsAt
  rw [if_neg (by omega : ¬ ((sn : Int) < 0))]
  simp only [Int.toNat_ofNat, h]

lemma numStates_eq_length : f.numStates = f.states.length := rfl

lemma stateAt_nat (sn : Nat) : f.stateAt (sn : Int) = f.states[sn]? := by
  unfold stateAt
  rw [if_neg (by omega : ¬ ((sn : Int) < 0))]
  simp

lemma finalW_nat (sn : Nat) (w2 : V) (as : List (Arc V))
    (h : f.states[sn]? = some (w2, as)) : f.finalW wo (sn : Int) = w2 := by
  unfold finalW
  rw [stateAt_nat, h]
  rfl

lemma arcsOf_nat (sn : Nat) (w2 : V) (as : List (Arc V))
    (h : f.states[sn]? = some (w2, as)) : f.arcsOf (sn : Int) = as := by
  unfold arcsOf
  rw [stateAt_nat, h]
  rfl

end FstM

lemma foldl_range_succ {α : Type} (f : α → Nat → α) (a : α) (N : Nat) :
    (List.range (N + 1)).foldl f a = f ((List.range N).foldl f a) N := by
  rw [List.range_succ, List.foldl_append]
  rfl

lemma foldl_range_ind {α : Type} (f : α → Nat → α) (P : Nat → α → Prop)
    (N : Nat) (a : α) (h0 : P 0 a)
    (hs : ∀ k b, k < N → P k b → P (k + 1) (f b k)) :
    P N ((List.range N).foldl f a) := by
  induction N with
  | zero => simpa using h0
  | succ n ih =>
    rw [foldl_range_succ]
    exact hs n _ (Nat.lt_succ_self n)
      (ih (fun k b hk => hs k b (Nat.lt_succ_of_lt hk)))

lemma foldl_addArc_spec {A : Type} (g : A → Arc V) (sn : Nat) :
    ∀ (l : List A) (f : FstM V) (w : V) (as : List (Arc V)),
      f.states[sn]? = some (w, as) →
      l.foldl (fun h a => h.addArc (sn : Int) (g a)) f =
        { f with states := f.states.set sn (w, as ++ l.map g) }
  | [], f, w, as, h => by
    simp only [List.foldl_nil, List.map_nil, List.append_nil]
    have hst : f.states = f.states.set sn (w, as) := by
      have hlen : sn < f.states.length := by
        by_contra hc
        rw [List.getElem?_eq_none (by omega)] at h
        exact Option.noConfusion h
      apply List.ext_getElem?
      intro n
      by_cases hn : n = sn
      · subst hn
        rw [List.getElem?_set_eq hlen, h]
      · rw [List.getElem?_set_ne (fun he => hn he.symm)]
    conv_rhs => rw [← hst]
  | (a :: t), f, w, as, h => by
    have hlen : sn < f.states.length := by
      by_contra hc
      rw [List.getElem?_eq_none (by omega)] at h
      exact Option.noConfusion h
    have hadd : f.addArc (sn : Int) (g a) =
        { f with states := f.states.set sn (w, as ++ [g a]) } := by
      unfold FstM.addArc
      rw [if_neg (by omega : ¬ ((sn : Int) < 0))]
      simp only [Int.toNat_ofNat, h]
    rw [List.foldl_cons, hadd,
      foldl_addArc_spec g sn t _ w (as ++ [g a]) (by rw [List.getElem?_set_eq]; simp [hlen])]
    simp [List.set_set, List.append_assoc]

lemma errBit_sticky (f : FstM V) (np mask : Nat) (h : f.props &&& kError ≠ 0) :
    (f.setProps np mask).props &&& kError ≠ 0 := by
  rw [errBit_iff] at h ⊢
  simp [setPropsMask_testBit2, h]

end BasicLemmas

/-! Claim theorems: cache memoization, intersection precondition, union
symbol compatibility, index bijection. -/

section ClaimGroupA

variable {V : Type} [DecidableEq V]

lemma expandOp_hasArcs (wo : Wops V) (i : ArcMapFstImpl V) (s : Int) :
    (ArcMapFstImpl.expandOp wo i s).HasArcs s = true := by
  unfold ArcMapFstImpl.expandOp
  split
  · simp [ArcMapFstImpl.setArcsC, ArcMapFstImpl.HasArcs]
  · simp [ArcMapFstImpl.setArcsC, ArcMapFstImpl.HasArcs]

/-- C3: reading the arcs of a lazy-wrapper state a second time after its
first expansion returns the identical cached arcs and leaves the wrapper
implementation - including its count of mapper operator() invocations -
unchanged: expansion is idempotent and happens at most once per state per
wrapper instance. -/
theorem arcMapFst_arc_read_memoized (wo : Wops V) (i : ArcMapFstImpl V) (s : Int) :
    ArcMapFstImpl.readArcs wo (ArcMapFstImpl.readArcs wo i s).2 s =
      ArcMapFstImpl.readArcs wo i s ∧
    ((ArcMapFstImpl.readArcs wo (ArcMapFstImpl.readArcs wo i s).2 s).2).calls =
      ((ArcMapFstImpl.readArcs wo i s).2).calls := by
  have key : ArcMapFstImpl.readArcs wo (ArcMapFstImpl.readArcs wo i s).2 s =
      ArcMapFstImpl.readArcs wo i s := by
    unfold ArcMapFstImpl.readArcs
    by_cases h : i.HasArcs s = true
    · simp [h]
    · simp only [Bool.not_eq_true] at h
      simp [h, expandOp_hasArcs, ArcMapFstImpl.cachedArcs]
  exact ⟨key, by rw [key]⟩

/-- C7: building an IntersectFst from two automatons at least one of which
has an arc with differing input and output labels sets the error property
bit on the result at construction; the construction is a total function of
its inputs, so the result stays well-formed and queryable. -/
theorem intersect_nonacceptor_error (fst1 fst2 : FstM V)
    (h : (∃ st ∈ fst1.states, ∃ a ∈ st.2, a.ilabel ≠ a.olabel) ∨
         (∃ st ∈ fst2.states, ∃ a ∈ st.2, a.ilabel ≠ a.olabel)) :
    IntersectFstProps fst1 fst2 &&& kError ≠ 0 := by
  unfold IntersectFstProps
  have hb : (isAcceptorB fst1 && isAcceptorB fst2) = false := by
    rcases h with ⟨st, hst, a, ha, hne⟩ | ⟨st, hst, a, ha, hne⟩
    · have hacc : isAcceptorB fst1 = false := by
        unfold isAcceptorB
        rw [List.all_eq_false]
        refine ⟨st, hst, ?_⟩
        rw [Bool.not_eq_true, List.all_eq_false]
        exact ⟨a, ha, by simp [hne]⟩
      simp [hacc]
    · have hacc : isAcceptorB fst2 = false := by
        unfold isAcceptorB
        rw [List.all_eq_false]
        refine ⟨st, hst, ?_⟩
        rw [Bool.not_eq_true, List.all_eq_false]
        exact ⟨a, ha, by simp [hne]⟩
      simp [hacc]
  rw [hb]
  simp [kError]

/-- Witness for C7 at a concrete non-acceptor input. -/
theorem intersect_nonacceptor_error_witness :
    IntersectFstProps fstNonAcceptor fstNonAcceptor &&& kError ≠ 0 :=
  intersect_nonacceptor_error fstNonAcceptor fstNonAcceptor
    (Or.inl ⟨(1, [⟨1, 2, 1, 0⟩]), by decide, ⟨1, 2, 1, 0⟩, by decide, by decide⟩)

/-- C8: union with declared-incompatible symbol tables sets the error bit on
the first automaton and performs no state mutation: its states (hence all
final weights and arcs) and its start state are unchanged. -/
theorem union_incompatible_symbols (wo : Wops V) (fst1 fst2 : FstM V)
    (h : ¬ (CompatSymbols fst1.isyms fst2.isyms = true ∧
            CompatSymbols fst1.osyms fst2.osyms = true)) :
    (Union wo fst1 fst2).states = fst1.states ∧
    (Union wo fst1 fst2).start = fst1.start ∧
    (Union wo fst1 fst2).props &&& kError ≠ 0 := by
  unfold Union
  rw [if_pos h]
  refine ⟨rfl, rfl, ?_⟩
  rw [errBit_iff]
  simp [FstM.setProps, setPropsMask_testBit2, kError_testBit2]

/-- Witness for C8 at concretely incompatible symbol tables. -/
theorem union_incompatible_symbols_witness :
    (Union natW fstSymsSeven fstSymsFive).states = fstSymsSeven.states ∧
    (Union natW fstSymsSeven fstSymsFive).start = fstSymsSeven.start ∧
    (Union natW fstSymsSeven fstSymsFive).props &&& kError ≠ 0 :=
  union_incompatible_symbols natW fstSymsSeven fstSymsFive (by decide)

/-- C9: the two index-translation functions of the lazy wrapper form a
bijection that is consistent in both directions at every point of the
wrapper's lifetime: FindIState inverts FindOState on every input state id,
output ids equal input ids when no superfinal state exists and otherwise are
shifted up by one at or after the superfinal position, and Init pins the
superfinal state at index 0 under the require-superfinal policy. -/
theorem findState_bijection (sf n i : Int)
    (hsf : sf = kNoStateId ∨ 0 ≤ sf) (hi : 0 ≤ i) :
    FindIState sf (FindOState sf n i).1 = i ∧
    (sf = kNoStateId → (FindOState sf n i).1 = i) ∧
    (0 ≤ sf → (FindOState sf n i).1 = (if i < sf then i else i + 1)) ∧
    (∀ (m : ArcMapper V) (fst : FstM V), fst.start ≠ kNoStateId →
        m.finalAction = MAP_REQUIRE_SUPERFINAL →
        (ArcMapFstImpl.init m fst).superfinal = 0) := by
  refine ⟨?_, ?_, ?_, ?_⟩
  · unfold FindIState FindOState FindOStatePure kNoStateId at *
    dsimp only
    split_ifs <;> omega
  · intro hno
    unfold FindOState FindOStatePure
    rw [if_pos (Or.inl hno)]
  · intro hpos
    unfold FindOState FindOStatePure kNoStateId at *
    dsimp only
    split_ifs <;> omega
  · intro m fst h1 h2
    unfold ArcMapFstImpl.init
    rw [if_neg h1]
    simp [h2]

/-- Witness for C9 at concrete indices with a superfinal pinned at 0. -/
theorem findState_bijection_witness :
    FindIState 0 (FindOState 0 3 5).1 = 5 ∧
    ((0 : Int) = kNoStateId → (FindOState 0 3 5).1 = 5) ∧
    ((0 : Int) ≤ 0 → (FindOState 0 3 5).1 = (if (5 : Int) < 0 then 5 else 5 + 1)) ∧
    (∀ (m : ArcMapper Nat) (fst : FstM Nat), fst.start ≠ kNoStateId →
        m.finalAction = MAP_REQUIRE_SUPERFINAL →
        (ArcMapFstImpl.init m fst).superfinal = 0) :=
  findState_bijection (V := Nat) 0 3 5 (Or.inr (by decide)) (by decide)

end ClaimGroupA

/-! Union: state counting and the no-start-state branch. -/

section UnionClaims

variable {V : Type} [DecidableEq V]

lemma foldl_preserve_fields {A : Type} (F : FstM V → A → FstM V)
    (hF : ∀ f a, (F f a).states.length = f.states.length ∧ (F f a).start = f.start ∧
      (F f a).props = f.props ∧ (F f a).isyms = f.isyms ∧ (F f a).osyms = f.osyms) :
    ∀ (l : List A) (f : FstM V),
      (l.foldl F f).states.length = f.states.length ∧ (l.foldl F f).start = f.start ∧
      (l.foldl F f).props = f.props ∧ (l.foldl F f).isyms = f.isyms ∧
      (l.foldl F f).osyms = f.osyms
  | [], f => ⟨rfl, rfl, rfl, rfl, rfl⟩
  | (a :: t), f => by
    rw [List.foldl_cons]
    obtain ⟨h1, h2, h3, h4, h5⟩ := foldl_preserve_fields F hF t (F f a)
    obtain ⟨g1, g2, g3, g4, g5⟩ := hF f a
    exact ⟨h1.trans g1, h2.trans g2, h3.trans g3, h4.trans g4, h5.trans g5⟩

lemma unionAppendStep_fields (wo : Wops V) (fst2 : FstM V) (k : Nat)
    (f : FstM V) (s2 : Nat) :
    (unionAppendStep wo fst2 k f s2).states.length = f.states.length + 1 ∧
    (unionAppendStep wo fst2 k f s2).start = f.start ∧
    (unionAppendStep wo fst2 k f s2).props = f.props ∧
    (unionAppendStep wo fst2 k f s2).isyms = f.isyms ∧
    (unionAppendStep wo fst2 k f s2).osyms = f.osyms := by
  unfold unionAppendStep
  dsimp only
  obtain ⟨h1, h2, h3, h4, h5⟩ := foldl_preserve_fields
    (fun g a => g.addArc (f.addState wo).2 { a with nextstate := a.nextstate + (k : Int) })
    (fun g a => by simp) (fst2.arcsOf (s2 : Int))
    (((f.addState wo).1).setFinal (f.addState wo).2 (fst2.finalW wo (s2 : Int)))
  refine ⟨?_, ?_, ?_, ?_, ?_⟩
  · rw [h1]; simp
  · rw [h2]; simp
  · rw [h3]; simp
  · rw [h4]; simp
  · rw [h5]; simp

lemma union_fold_fields (wo : Wops V) (fst1 fst2 : FstM V) (N : Nat) :
    ((List.range N).foldl (unionAppendStep wo fst2 fst1.numStates) fst1).states.length
        = fst1.states.length + N ∧
    ((List.range N).foldl (unionAppendStep wo fst2 fst1.numStates) fst1).start = fst1.start ∧
    ((List.range N).foldl (unionAppendStep wo fst2 fst1.numStates) fst1).props = fst1.props := by
  refine foldl_range_ind (unionAppendStep wo fst2 fst1.numStates)
    (fun k f => f.states.length = fst1.states.length + k ∧ f.start = fst1.start ∧
      f.props = fst1.props) N fst1 ⟨rfl, rfl, rfl⟩ ?_
  intro k b _ hb
  obtain ⟨h1, h2, h3, _, _⟩ := unionAppendStep_fields wo fst2 fst1.numStates b k
  exact ⟨by rw [h1, hb.1]; omega, h2.trans hb.2.1, h3.trans hb.2.2⟩

/-- C4 (amended: the second automaton has a start state): after union, the
state count of the result equals NumStates(A) + NumStates(B) plus one extra
state exactly when a new start state had to be synthesized, namely when A
had a start state whose kInitialAcyclic property bit was not set. -/
theorem union_state_count (wo : Wops V) (fst1 fst2 : FstM V)
    (hc : CompatSymbols fst1.isyms fst2.isyms = true ∧
          CompatSymbols fst1.osyms fst2.osyms = true)
    (h2 : fst2.start ≠ kNoStateId) :
    (Union wo fst1 fst2).numStates = fst1.numStates + fst2.numStates +
      (if fst1.start ≠ kNoStateId ∧ fst1.props &&& kInitialAcyclic ≠ kInitialAcyclic
       then 1 else 0) := by
  unfold Union
  rw [if_neg (not_not_intro hc)]
  dsimp only
  rw [if_neg h2]
  obtain ⟨hlen, hstart, _⟩ := union_fold_fields wo fst1 fst2 fst2.numStates
  simp only [FstM.numStates_eq_length] at hlen hstart ⊢
  by_cases h1 : fst1.start = kNoStateId
  · rw [if_pos (hstart.trans h1)]
    simp only [FstM.numStates_eq_length, FstM.setProps_states, FstM.setStart_states, hlen]
    rw [if_neg (by simp [h1])]
    omega
  · rw [if_neg (fun hcontra => h1 (hstart.symm.trans hcontra))]
    by_cases hacy : fst1.props &&& kInitialAcyclic = kInitialAcyclic
    · rw [if_pos (by simpa using hacy)]
      simp only [FstM.numStates_eq_length, FstM.setProps_states, FstM.addArc_length, hlen]
      rw [if_neg (by simp [hacy])]
      omega
    · rw [if_neg (by simpa using hacy)]
      simp only [FstM.numStates_eq_length, FstM.setProps_states, FstM.addArc_length,
        FstM.setStart_states, FstM.addState_fst_states, List.length_append, hlen]
      rw [if_pos ⟨h1, hacy⟩]
      simp

/-- Witness for C4 at concrete automatons (acyclic start, no extra state). -/
theorem union_state_count_witness :
    (Union natW fstAcyclicOne fstPlainOne).numStates =
      fstAcyclicOne.numStates + fstPlainOne.numStates +
        (if fstAcyclicOne.start ≠ kNoStateId ∧
            fstAcyclicOne.props &&& kInitialAcyclic ≠ kInitialAcyclic then 1 else 0) :=
  union_state_count natW fstAcyclicOne fstPlainOne (by decide) (by decide)

/-- Counterexample to C4 as frozen: when the second automaton has states but
no start state, Union returns early and adds none of them, so the count is
NumStates(A), not NumStates(A) + NumStates(B) + (0 or 1) - here 1 against
the predicted 2. -/
theorem union_state_count_cex :
    CompatSymbols fstAcyclicOne.isyms fstDeadState.isyms = true ∧
    CompatSymbols fstAcyclicOne.osyms fstDeadState.osyms = true ∧
    (Union natW fstAcyclicOne fstDeadState).numStates = 1 ∧
    fstAcyclicOne.numStates + fstDeadState.numStates +
      (if fstAcyclicOne.start ≠ kNoStateId ∧
          fstAcyclicOne.props &&& kInitialAcyclic ≠ kInitialAcyclic then 1 else 0) = 2 := by
  decide

lemma arc_shift_zero (a : Arc V) : { a with nextstate := a.nextstate + ((0 : Nat) : Int) } = a := by
  cases a
  simp

lemma unionAppendStep_states_spec (wo : Wops V) (fst2 : FstM V) (k : Nat)
    (f : FstM V) (s2 : Nat) (w : V) (as : List (Arc V))
    (h : fst2.states[s2]? = some (w, as)) :
    (unionAppendStep wo fst2 k f s2).states =
      f.states ++ [(w, as.map (fun a => { a with nextstate := a.nextstate + (k : Int) }))] := by
  unfold unionAppendStep
  dsimp only
  simp only [FstM.addState_snd]
  have hfin : fst2.finalW wo (s2 : Int) = w := FstM.finalW_nat fst2 wo s2 w as h
  have harcs : fst2.arcsOf (s2 : Int) = as := FstM.arcsOf_nat fst2 s2 w as h
  have hset : ((f.addState wo).1.setFinal ((f.states.length : Nat) : Int)
      (fst2.finalW wo (s2 : Int))).states
      = (f.states ++ [(wo.zero, [])]).set f.states.length (w, []) := by
    rw [hfin]
    have := FstM.setFinal_states_eq (f.addState wo).1 w f.states.length wo.zero []
      (by simp [List.getElem?_concat_length])
    simpa using this
  have hget : ((f.addState wo).1.setFinal ((f.states.length : Nat) : Int)
      (fst2.finalW wo (s2 : Int))).states[f.states.length]? = some (w, []) := by
    rw [hset, List.getElem?_set_eq (by simp)]
  rw [harcs]
  rw [foldl_addArc_spec (fun a => { a with nextstate := a.nextstate + (k : Int) })
    f.states.length as _ w [] hget]
  dsimp only
  rw [hset, List.set_set, List.nil_append,
    List.set_append_right _ _ (Nat.le_refl _)]
  simp

lemma union_fold_states_spec (wo : Wops V) (fst1 fst2 : FstM V) (N : Nat)
    (hN : N ≤ fst2.numStates) :
    ((List.range N).foldl (unionAppendStep wo fst2 fst1.numStates) fst1).states =
      fst1.states ++ ((fst2.states.take N).map
        (fun st => (st.1, st.2.map
          (fun a => { a with nextstate := a.nextstate + (fst1.numStates : Int) })))) := by
  induction N with
  | zero => simp
  | succ n ih =>
    rw [foldl_range_succ]
    have hn : n < fst2.states.length := by
      have := hN
      rw [FstM.numStates_eq_length] at this
      omega
    obtain ⟨w, as, hget⟩ : ∃ w as, fst2.states[n]? = some (w, as) := by
      rcases hw : fst2.states[n]? with _ | ⟨w, as⟩
      · rw [List.getElem?_eq_none_iff] at hw
        omega
      · exact ⟨w, as, rfl⟩
    rw [unionAppendStep_states_spec wo fst2 fst1.numStates _ n w as hget,
      ih (by omega)]
    rw [List.append_assoc]
    congr 1
    rw [List.take_succ, hget]
    simp

lemma setPropsMask_and_copy (p np : Nat) (hp : p &&& kError = 0) :
    setPropsMask p np kCopyProperties &&& kCopyProperties = np &&& kCopyProperties := by
  unfold setPropsMask
  rw [Nat.and_distrib_right, Nat.and_assoc, Nat.and_assoc,
    (by decide : ((kAllProperties ^^^ (kCopyProperties &&& kAllProperties)) ||| kError) &&&
      kCopyProperties = kError),
    (by decide : kCopyProperties &&& kCopyProperties = kCopyProperties), hp]
  simp

/-- C5 (amended: the first automaton has no states at all, the second has a
start state, and the first carries no error bit): Union then makes the first
automaton exactly a copy of the second - same states (final weights and
arcs, the id shift being zero), same start state, and its property mask
within the copyable-property set equal to the second's. -/
theorem union_into_empty_copies (wo : Wops V) (fst1 fst2 : FstM V)
    (hempty : fst1.states = []) (hstart1 : fst1.start = kNoStateId)
    (hc : CompatSymbols fst1.isyms fst2.isyms = true ∧
          CompatSymbols fst1.osyms fst2.osyms = true)
    (h2 : fst2.start ≠ kNoStateId)
    (herr : fst1.props &&& kError = 0) :
    (Union wo fst1 fst2).start = fst2.start ∧
    (Union wo fst1 fst2).states = fst2.states ∧
    (Union wo fst1 fst2).props &&& kCopyProperties = fst2.props &&& kCopyProperties := by
  unfold Union
  rw [if_neg (not_not_intro hc)]
  dsimp only
  rw [if_neg h2]
  obtain ⟨hlen, hstart, _⟩ := union_fold_fields wo fst1 fst2 fst2.numStates
  simp only [FstM.numStates_eq_length] at hlen hstart ⊢
  rw [if_pos (hstart.trans hstart1)]
  have hstates :
      ((List.range fst2.states.length).foldl
          (unionAppendStep wo fst2 fst1.states.length) fst1).states
        = fst2.states := by
    have hspec := union_fold_states_spec wo fst1 fst2 fst2.numStates (Nat.le_refl _)
    simp only [FstM.numStates_eq_length] at hspec
    rw [hspec, hempty, List.nil_append, List.take_length]
    simp only [List.length_nil]
    have harc : ∀ l2 : List (Arc V),
        l2.map (fun a => { a with nextstate := a.nextstate + ((0 : Nat) : Int) }) = l2 := by
      intro l2
      induction l2 with
      | nil => rfl
      | cons a t ih => rw [List.map_cons, ih, arc_shift_zero]
    have hmap : ∀ l : List (V × List (Arc V)),
        l.map (fun st => (st.1, st.2.map
          (fun a => { a with nextstate := a.nextstate + ((0 : Nat) : Int) }))) = l := by
      intro l
      induction l with
      | nil => rfl
      | cons hd tl ih => rw [List.map_cons, ih, harc]
    rw [hmap]
  refine ⟨by simp, by simp [hstates], ?_⟩
  have hprops :
      ((List.range fst2.states.length).foldl
          (unionAppendStep wo fst2 fst1.states.length) fst1).props
        = fst1.props := by
    have := (union_fold_fields wo fst1 fst2 fst2.numStates).2.2
    simpa only [FstM.numStates_eq_length] using this
  simp only [FstM.setProps_props, FstM.setStart_props, hprops]
  rw [setPropsMask_and_copy fst1.props (fst2.props &&& kFstProperties) herr,
    Nat.and_assoc, (by decide : kFstProperties &&& kCopyProperties = kCopyProperties)]

/-- Witness for C5 at a concrete empty left operand. -/
theorem union_into_empty_copies_witness :
    (Union natW fstEmpty fstPlainOne).start = fstPlainOne.start ∧
    (Union natW fstEmpty fstPlainOne).states = fstPlainOne.states ∧
    (Union natW fstEmpty fstPlainOne).props &&& kCopyProperties =
      fstPlainOne.props &&& kCopyProperties :=
  union_into_empty_copies natW fstEmpty fstPlainOne rfl rfl (by decide) (by decide) (by decide)

/-- Counterexample to C5 as frozen: a first automaton with one (dead) state
but no start state keeps that state, and the adopted start state is the
second automaton's id unshifted, so the result is not a copy of the second
automaton with ids shifted by the pre-union state count (1): it has 2 states
against B's 1 and start 0 against the shifted 1. -/
theorem union_into_startless_cex :
    fstDeadState.start = kNoStateId ∧
    (Union natW fstDeadState fstPlainOne).numStates = 2 ∧
    fstPlainOne.numStates = 1 ∧
    (Union natW fstDeadState fstPlainOne).start = 0 ∧
    fstPlainOne.start + (fstDeadState.numStates : Int) = 1 := by
  decide

end UnionClaims

/-! Eager arc-map characterizations. -/

section EagerSpecs

variable {V : Type} [DecidableEq V]

lemma applyMapper_nextstate (m : ArcMapper V) (a : Arc V) :
    (applyMapper m a).nextstate = a.nextstate := rfl

lemma applyMapper_shift (m : ArcMapper V) (a : Arc V) (x : Int)
    (hx : (x == kNoStateId) = (a.nextstate == kNoStateId)) :
    applyMapper m { a with nextstate := x } = { applyMapper m a with nextstate := x } := by
  unfold applyMapper
  dsimp only
  rw [hx]

lemma finalTriggerB_false_iff (wo : Wops V) (m : ArcMapper V) (f : FstM V) (s : Int) :
    finalTriggerB wo m f s = false ↔
      ((mappedFinalArc wo m f s).ilabel = 0 ∧ (mappedFinalArc wo m f s).olabel = 0) := by
  unfold finalTriggerB
  simp

lemma ArcMapCopyStep_plain (wo : Wops V) (m : ArcMapper V) (ifst : FstM V)
    (k : Nat) (f1 : FstM V) (sf : Int)
    (hk : k < f1.states.length)
    (hgetk : f1.states[k]? = some (wo.zero, []))
    (hfa : m.finalAction = MAP_NO_SUPERFINAL ∨
      (m.finalAction = MAP_ALLOW_SUPERFINAL ∧ finalTriggerB wo m ifst (k : Int) = false)) :
    (ArcMapCopyStep wo m ifst (f1, sf) k).1.states =
      f1.states.set k ((mappedFinalArc wo m ifst (k : Int)).weight,
        (ifst.arcsOf (k : Int)).map (applyMapper m)) ∧
    (ArcMapCopyStep wo m ifst (f1, sf) k).1.start =
      (if (k : Int) = ifst.start then (k : Int) else f1.start) ∧
    (ArcMapCopyStep wo m ifst (f1, sf) k).2 = sf := by
  unfold ArcMapCopyStep
  dsimp only
  generalize hB : (if (k : Int) = ifst.start then f1.setStart (k : Int) else f1) = base
  have hbs : base.states = f1.states := by
    rw [← hB]
    split <;> simp
  have hbstart : base.start = (if (k : Int) = ifst.start then (k : Int) else f1.start) := by
    rw [← hB]
    split <;> rename_i h <;> simp [h]
  rw [foldl_addArc_spec (applyMapper m) k (ifst.arcsOf (k : Int)) base wo.zero []
    (by rw [hbs]; exact hgetk)]
  have hkb : k < base.states.length := by rw [hbs]; exact hk
  rcases hfa with hno | ⟨hallow, hclean⟩
  · rw [hno]
    dsimp only
    by_cases hlab : (mappedFinalArc wo m ifst (k : Int)).ilabel ≠ 0 ∨
        (mappedFinalArc wo m ifst (k : Int)).olabel ≠ 0
    · rw [if_pos hlab]
      have hsf := FstM.setFinal_states_eq
        (({ base with states := base.states.set k (wo.zero,
            [] ++ (ifst.arcsOf (k : Int)).map (applyMapper m)) }).setProps kError kError)
        (mappedFinalArc wo m ifst (k : Int)).weight k wo.zero
        ((ifst.arcsOf (k : Int)).map (applyMapper m))
        (by
          simp only [FstM.setProps_states]
          rw [List.getElem?_set_eq hkb]
          simp)
      refine ⟨?_, ?_, rfl⟩
      · rw [hsf]
        simp only [FstM.setProps_states]
        rw [List.set_set, hbs]
      · rw [FstM.setFinal_start, FstM.setProps_start]
        exact hbstart
    · rw [if_neg hlab]
      have hsf := FstM.setFinal_states_eq
        ({ base with states := base.states.set k (wo.zero,
            [] ++ (ifst.arcsOf (k : Int)).map (applyMapper m)) })
        (mappedFinalArc wo m ifst (k : Int)).weight k wo.zero
        ((ifst.arcsOf (k : Int)).map (applyMapper m))
        (by
          rw [List.getElem?_set_eq hkb]
          simp)
      refine ⟨?_, ?_, rfl⟩
      · rw [hsf]
        rw [List.set_set, hbs]
      · rw [FstM.setFinal_start]
        exact hbstart
  · rw [hallow]
    dsimp only
    have hlab := (finalTriggerB_false_iff wo m ifst (k : Int)).mp hclean
    rw [if_neg (by
      intro hc
      rcases hc with hc | hc
      · exact hc hlab.1
      · exact hc hlab.2)]
    have hsf := FstM.setFinal_states_eq
      ({ base with states := base.states.set k (wo.zero,
          [] ++ (ifst.arcsOf (k : Int)).map (applyMapper m)) })
      (mappedFinalArc wo m ifst (k : Int)).weight k wo.zero
      ((ifst.arcsOf (k : Int)).map (applyMapper m))
      (by
        rw [List.getElem?_set_eq hkb]
        simp)
    refine ⟨?_, ?_, rfl⟩
    · rw [hsf]
      rw [List.set_set, hbs]
    · rw [FstM.setFinal_start]
      exact hbstart

/-- Per-state outcome of the copying ArcMap under a policy that never
creates a superfinal state. -/
lemma ArcMapCopy_plain_spec (wo : Wops V) (m : ArcMapper V) (ifst : FstM V)
    (hstart : ifst.start ≠ kNoStateId)
    (hfa : m.finalAction = MAP_NO_SUPERFINAL ∨
      (m.finalAction = MAP_ALLOW_SUPERFINAL ∧
        ∀ s : Nat, s < ifst.states.length → finalTriggerB wo m ifst (s : Int) = false)) :
    (ArcMapCopy wo m ifst).states.length = ifst.states.length ∧
    (0 ≤ ifst.start → ifst.start < (ifst.states.length : Int) →
        (ArcMapCopy wo m ifst).start = ifst.start) ∧
    (∀ s : Nat, s < ifst.states.length →
      (ArcMapCopy wo m ifst).states[s]? =
        some ((mappedFinalArc wo m ifst (s : Int)).weight,
          (ifst.arcsOf (s : Int)).map (applyMapper m))) := by
  have hnreq : m.finalAction ≠ MAP_REQUIRE_SUPERFINAL := by
    rcases hfa with h | ⟨h, _⟩ <;> rw [h] <;> exact fun hc => by cases hc
  unfold ArcMapCopy
  rw [if_neg hstart]
  dsimp only
  rw [if_neg hnreq]
  simp only [FstM.numStates_eq_length]
  have key := foldl_range_ind (ArcMapCopyStep wo m ifst)
    (fun k st =>
      st.2 = kNoStateId ∧
      st.1.states.length = ifst.states.length ∧
      st.1.start = (if 0 ≤ ifst.start ∧ ifst.start < (k : Int) then ifst.start
        else kNoStateId) ∧
      ∀ s : Nat, s < ifst.states.length →
        st.1.states[s]? = some (if s < k then
          ((mappedFinalArc wo m ifst (s : Int)).weight,
            (ifst.arcsOf (s : Int)).map (applyMapper m))
          else (wo.zero, [])))
    ifst.states.length
    ({ start := kNoStateId, states := List.replicate ifst.states.length (wo.zero, []),
       props := 0, isyms := symsFresh m.isymsAction ifst.isyms,
       osyms := symsFresh m.osymsAction ifst.osyms }, kNoStateId)
    (by
      refine ⟨rfl, by simp, by rw [if_neg (by omega)], ?_⟩
      intro s hs
      dsimp only
      simp only [List.getElem?_replicate]
      rw [if_pos hs, if_neg (by omega)])
    (by
      intro k st hk hP
      obtain ⟨f1, sf⟩ := st
      obtain ⟨hsf, hlen, hst, hget⟩ := hP
      dsimp only at hsf hlen hst hget
      obtain ⟨hstates, hstart2, hsf2⟩ := ArcMapCopyStep_plain wo m ifst k f1 sf
        (by omega) (by rw [hget k hk]; simp [Nat.lt_irrefl])
        (by
          rcases hfa with h | ⟨h, hclean⟩
          · exact Or.inl h
          · exact Or.inr ⟨h, hclean k hk⟩)
      refine ⟨by rw [hsf2]; exact hsf, ?_, ?_, ?_⟩
      · rw [hstates]
        simp [hlen]
      · rw [hstart2]
        split <;> rename_i hks
        · rw [if_pos (by constructor <;> omega)]
          exact hks
        · rw [hst]
          split <;> rename_i hc1
          · rw [if_pos (by
              obtain ⟨hc1a, hc1b⟩ := hc1
              constructor <;> omega)]
          · rw [if_neg (by
              intro hc2
              apply hc1
              obtain ⟨hc2a, hc2b⟩ := hc2
              constructor
              · omega
              · omega)]
      · intro s hs
        rw [hstates]
        by_cases hsk : s = k
        · subst hsk
          rw [List.getElem?_set_eq (by omega)]
          rw [if_pos (Nat.lt_succ_self s)]
        · rw [List.getElem?_set_ne (fun he => hsk he.symm)]
          rw [hget s hs]
          congr 1
          by_cases hsl : s < k
          · rw [if_pos hsl, if_pos (by omega)]
          · rw [if_neg hsl, if_neg (by omega)])
  obtain ⟨_, hlen, hst, hget⟩ := key
  refine ⟨by simpa using hlen, ?_, ?_⟩
  · intro h1 h2
    simp only [FstM.setProps_start]
    rw [hst, if_pos ⟨h1, h2⟩]
  · intro s hs
    simp only [FstM.setProps_states]
    rw [hget s hs, if_pos hs]

lemma requireArcB_iff (wo : Wops V) (m : ArcMapper V) (f : FstM V) (s : Int) :
    requireArcB wo m f s = true ↔
      ((mappedFinalArc wo m f s).ilabel ≠ 0 ∨ (mappedFinalArc wo m f s).olabel ≠ 0 ∨
        (mappedFinalArc wo m f s).weight ≠ wo.zero) := by
  unfold requireArcB
  simp [or_assoc]

lemma addState_setFinal_one (wo : Wops V) (f : FstM V) :
    ((f.addState wo).1.setFinal (f.addState wo).2 wo.one).states = f.states ++ [(wo.one, [])] := by
  simp only [FstM.addState_snd]
  rw [FstM.setFinal_states_eq (f.addState wo).1 wo.one f.states.length wo.zero []
    (by simp [List.getElem?_concat_length])]
  simp only [FstM.addState_fst_states]
  rw [List.set_append_right _ _ (Nat.le_refl _)]
  simp

lemma ArcMapCopyStep_require (wo : Wops V) (m : ArcMapper V) (ifst : FstM V)
    (k : Nat) (f1 : FstM V) (sf : Int)
    (hk : k < f1.states.length)
    (hgetk : f1.states[k]? = some (wo.zero, []))
    (hfa : m.finalAction = MAP_REQUIRE_SUPERFINAL) :
    (ArcMapCopyStep wo m ifst (f1, sf) k).1.states =
      f1.states.set k (wo.zero,
        (ifst.arcsOf (k : Int)).map (applyMapper m) ++
          (if requireArcB wo m ifst (k : Int) = true then
            [⟨(mappedFinalArc wo m ifst (k : Int)).ilabel,
              (mappedFinalArc wo m ifst (k : Int)).olabel,
              (mappedFinalArc wo m ifst (k : Int)).weight, sf⟩] else [])) ∧
    (ArcMapCopyStep wo m ifst (f1, sf) k).1.start =
      (if (k : Int) = ifst.start then (k : Int) else f1.start) ∧
    (ArcMapCopyStep wo m ifst (f1, sf) k).2 = sf := by
  unfold ArcMapCopyStep
  dsimp only
  generalize hB : (if (k : Int) = ifst.start then f1.setStart (k : Int) else f1) = base
  have hbs : base.states = f1.states := by
    rw [← hB]
    split <;> simp
  have hbstart : base.start = (if (k : Int) = ifst.start then (k : Int) else f1.start) := by
    rw [← hB]
    split <;> rename_i h <;> simp [h]
  rw [foldl_addArc_spec (applyMapper m) k (ifst.arcsOf (k : Int)) base wo.zero []
    (by rw [hbs]; exact hgetk)]
  have hkb : k < base.states.length := by rw [hbs]; exact hk
  rw [hfa]
  dsimp only
  by_cases hcond : (mappedFinalArc wo m ifst (k : Int)).ilabel ≠ 0 ∨
      (mappedFinalArc wo m ifst (k : Int)).olabel ≠ 0 ∨
      (mappedFinalArc wo m ifst (k : Int)).weight ≠ wo.zero
  · rw [if_pos hcond]
    have hadd := FstM.addArc_states_eq
      ({ base with states := base.states.set k (wo.zero,
          [] ++ (ifst.arcsOf (k : Int)).map (applyMapper m)) })
      ⟨(mappedFinalArc wo m ifst (k : Int)).ilabel,
        (mappedFinalArc wo m ifst (k : Int)).olabel,
        (mappedFinalArc wo m ifst (k : Int)).weight, sf⟩ k wo.zero
      ([] ++ (ifst.arcsOf (k : Int)).map (applyMapper m))
      (by
        rw [List.getElem?_set_eq hkb])
    have hsf := FstM.setFinal_states_eq
      (({ base with states := base.states.set k (wo.zero,
          [] ++ (ifst.arcsOf (k : Int)).map (applyMapper m)) }).addArc (k : Int)
        ⟨(mappedFinalArc wo m ifst (k : Int)).ilabel,
          (mappedFinalArc wo m ifst (k : Int)).olabel,
          (mappedFinalArc wo m ifst (k : Int)).weight, sf⟩)
      wo.zero k wo.zero
      (([] ++ (ifst.arcsOf (k : Int)).map (applyMapper m)) ++
        [⟨(mappedFinalArc wo m ifst (k : Int)).ilabel,
          (mappedFinalArc wo m ifst (k : Int)).olabel,
          (mappedFinalArc wo m ifst (k : Int)).weight, sf⟩])
      (by
        rw [hadd]
        rw [List.getElem?_set_eq (by simpa using hkb)])
    refine ⟨?_, ?_, rfl⟩
    · rw [hsf, hadd]
      rw [List.set_set, List.set_set, hbs, List.nil_append]
      rw [if_pos ((requireArcB_iff wo m ifst (k : Int)).mpr hcond)]
    · rw [FstM.setFinal_start, FstM.addArc_start]
      exact hbstart
  · rw [if_neg hcond]
    have hsf := FstM.setFinal_states_eq
      ({ base with states := base.states.set k (wo.zero,
          [] ++ (ifst.arcsOf (k : Int)).map (applyMapper m)) })
      wo.zero k wo.zero ([] ++ (ifst.arcsOf (k : Int)).map (applyMapper m))
      (by rw [List.getElem?_set_eq hkb])
    refine ⟨?_, ?_, rfl⟩
    · rw [hsf, List.set_set, hbs, List.nil_append]
      rw [if_neg (by
        intro hc
        exact hcond ((requireArcB_iff wo m ifst (k : Int)).mp hc))]
      rw [List.append_nil]
    · rw [FstM.setFinal_start]
      exact hbstart

/-- Per-state outcome of the copying ArcMap under MAP_REQUIRE_SUPERFINAL:
the superfinal state is appended at index n with final weight One and no
arcs, every copied state has final weight Zero, and each copied state's arc
list is its mapped arcs plus one arc into the superfinal state unless the
mapped pseudo-arc is epsilon-labelled with weight Zero. -/
lemma ArcMapCopy_require_spec (wo : Wops V) (m : ArcMapper V) (ifst : FstM V)
    (hstart : ifst.start ≠ kNoStateId)
    (hfa : m.finalAction = MAP_REQUIRE_SUPERFINAL) :
    (ArcMapCopy wo m ifst).states.length = ifst.states.length + 1 ∧
    (0 ≤ ifst.start → ifst.start < (ifst.states.length : Int) →
        (ArcMapCopy wo m ifst).start = ifst.start) ∧
    (ArcMapCopy wo m ifst).states[ifst.states.length]? = some (wo.one, []) ∧
    (∀ s : Nat, s < ifst.states.length →
      (ArcMapCopy wo m ifst).states[s]? =
        some (wo.zero,
          (ifst.arcsOf (s : Int)).map (applyMapper m) ++
            (if requireArcB wo m ifst (s : Int) = true then
              [⟨(mappedFinalArc wo m ifst (s : Int)).ilabel,
                (mappedFinalArc wo m ifst (s : Int)).olabel,
                (mappedFinalArc wo m ifst (s : Int)).weight,
                (ifst.states.length : Int)⟩] else []))) := by
  unfold ArcMapCopy
  rw [if_neg hstart]
  dsimp only
  rw [if_pos hfa]
  simp only [FstM.numStates_eq_length]
  have key : ∀ st0 : FstM V × Int,
      st0.2 = (ifst.states.length : Int) →
      st0.1.states.length = ifst.states.length + 1 →
      st0.1.start = kNoStateId →
      st0.1.states[ifst.states.length]? = some (wo.one, []) →
      (∀ s : Nat, s < ifst.states.length → st0.1.states[s]? = some (wo.zero, [])) →
      ((List.range ifst.states.length).foldl (ArcMapCopyStep wo m ifst) st0).2 =
          (ifst.states.length : Int) ∧
      ((List.range ifst.states.length).foldl (ArcMapCopyStep wo m ifst) st0).1.states.length =
          ifst.states.length + 1 ∧
      ((List.range ifst.states.length).foldl (ArcMapCopyStep wo m ifst) st0).1.start =
          (if 0 ≤ ifst.start ∧ ifst.start < (ifst.states.length : Int) then ifst.start
            else kNoStateId) ∧
      ((List.range ifst.states.length).foldl
          (ArcMapCopyStep wo m ifst) st0).1.states[ifst.states.length]? = some (wo.one, []) ∧
      ∀ s : Nat, s < ifst.states.length →
        ((List.range ifst.states.length).foldl
            (ArcMapCopyStep wo m ifst) st0).1.states[s]? =
          some (wo.zero,
            (ifst.arcsOf (s : Int)).map (applyMapper m) ++
              (if requireArcB wo m ifst (s : Int) = true then
                [⟨(mappedFinalArc wo m ifst (s : Int)).ilabel,
                  (mappedFinalArc wo m ifst (s : Int)).olabel,
                  (mappedFinalArc wo m ifst (s : Int)).weight,
                  (ifst.states.length : Int)⟩] else [])) := by
    intro st0 h2 hlen0 hstart0 hslotn0 hslot0
    have inv := foldl_range_ind (ArcMapCopyStep wo m ifst)
      (fun k st =>
        st.2 = (ifst.states.length : Int) ∧
        st.1.states.length = ifst.states.length + 1 ∧
        st.1.start = (if 0 ≤ ifst.start ∧ ifst.start < (k : Int) then ifst.start
          else kNoStateId) ∧
        st.1.states[ifst.states.length]? = some (wo.one, []) ∧
        ∀ s : Nat, s < ifst.states.length →
          st.1.states[s]? = some (if s < k then
            (wo.zero,
              (ifst.arcsOf (s : Int)).map (applyMapper m) ++
                (if requireArcB wo m ifst (s : Int) = true then
                  [⟨(mappedFinalArc wo m ifst (s : Int)).ilabel,
                    (mappedFinalArc wo m ifst (s : Int)).olabel,
                    (mappedFinalArc wo m ifst (s : Int)).weight,
                    (ifst.states.length : Int)⟩] else []))
            else (wo.zero, [])))
      ifst.states.length st0
      (by
        refine ⟨h2, hlen0, by rw [hstart0, if_neg (by omega)], hslotn0, ?_⟩
        intro s hs
        rw [hslot0 s hs, if_neg (by omega)])
      (by
        intro k st hk hP
        obtain ⟨f1, sf⟩ := st
        obtain ⟨hsf, hlen, hst, hslotn, hget⟩ := hP
        dsimp only at hsf hlen hst hslotn hget
        subst hsf
        obtain ⟨hstates, hstart2, hsf2⟩ := ArcMapCopyStep_require wo m ifst k f1
          (ifst.states.length : Int) (by omega)
          (by rw [hget k hk]; simp [Nat.lt_irrefl]) hfa
        refine ⟨hsf2, ?_, ?_, ?_, ?_⟩
        · rw [hstates]
          simp [hlen]
        · rw [hstart2]
          split <;> rename_i hks
          · rw [if_pos (by constructor <;> omega)]
            exact hks
          · rw [hst]
            split <;> rename_i hc1
            · rw [if_pos (by
                obtain ⟨hc1a, hc1b⟩ := hc1
                constructor <;> omega)]
            · rw [if_neg (by
                intro hc2
                apply hc1
                obtain ⟨hc2a, hc2b⟩ := hc2
                constructor
                · omega
                · omega)]
        · rw [hstates]
          rw [List.getElem?_set_ne (by omega)]
          exact hslotn
        · intro s hs
          rw [hstates]
          by_cases hsk : s = k
          · subst hsk
            rw [List.getElem?_set_eq (by omega)]
            rw [if_pos (Nat.lt_succ_self s)]
          · rw [List.getElem?_set_ne (fun he => hsk he.symm)]
            rw [hget s hs]
            congr 1
            by_cases hsl : s < k
            · rw [if_pos hsl, if_pos (show s < k + 1 by omega)]
            · rw [if_neg hsl, if_neg (show ¬ s < k + 1 by omega)])
    obtain ⟨i1, i2, i3, i4, i5⟩ := inv
    refine ⟨i1, i2, i3, i4, ?_⟩
    intro s hs
    rw [i5 s hs, if_pos hs]
  set A := ({ start := kNoStateId,
              states := List.replicate ifst.states.length (wo.zero, []), props := 0,
              isyms := symsFresh m.isymsAction ifst.isyms,
              osyms := symsFresh m.osymsAction ifst.osyms } : FstM V) with hA
  obtain ⟨_, hlen, hst, hslotn, hget⟩ := key
    ((A.addState wo).1.setFinal (A.addState wo).2 wo.one, (A.addState wo).2)
    (by simp [hA])
    (by simp [hA])
    (by simp)
    (by
      rw [addState_setFinal_one wo A]
      have hAlen : A.states.length = ifst.states.length := by simp [hA]
      rw [← hAlen]
      exact List.getElem?_concat_length _ _)
    (by
      intro s hs
      rw [addState_setFinal_one wo A]
      rw [List.getElem?_append_left (by simp [hA]; exact hs)]
      simp [hA, List.getElem?_replicate, hs])
  refine ⟨?_, ?_, ?_, ?_⟩
  · simpa using hlen
  · intro h1 h2
    simp only [FstM.setProps_start]
    rw [hst, if_pos ⟨h1, h2⟩]
  · simpa using hslotn
  · intro s hs
    simp only [FstM.setProps_states]
    exact hget s hs

lemma set_getElem_self {α : Type} (l : List α) (i : Nat) (a : α)
    (h : l[i]? = some a) : l.set i a = l := by
  have hlen : i < l.length := by
    by_contra hc
    rw [List.getElem?_eq_none (by omega)] at h
    exact Option.noConfusion h
  apply List.ext_getElem?
  intro n
  by_cases hn : n = i
  · subst hn
    rw [List.getElem?_set_eq hlen, h]
  · rw [List.getElem?_set_ne (fun he => hn he.symm)]

lemma ArcMapInPlaceStep_no (wo : Wops V) (m : ArcMapper V)
    (k : Nat) (f1 : FstM V) (sf : Int) (w : V) (as : List (Arc V))
    (hk : k < f1.states.length)
    (hgetk : f1.states[k]? = some (w, as))
    (hfa : m.finalAction = MAP_NO_SUPERFINAL) :
    (ArcMapInPlaceStep wo m (f1, sf) k).1.states =
      f1.states.set k ((applyMapper m ⟨0, 0, w, kNoStateId⟩).weight,
        as.map (applyMapper m)) ∧
    (ArcMapInPlaceStep wo m (f1, sf) k).1.start = f1.start ∧
    (ArcMapInPlaceStep wo m (f1, sf) k).2 = sf := by
  unfold ArcMapInPlaceStep
  dsimp only
  rw [hfa]
  dsimp only
  have hmap := FstM.mapArcsAt_states_eq f1 k w as (applyMapper m) hgetk
  have hMF : mappedFinalArc wo m (f1.mapArcsAt (k : Int) (applyMapper m)) (k : Int) =
      applyMapper m ⟨0, 0, w, kNoStateId⟩ := by
    unfold mappedFinalArc pseudoArc
    rw [FstM.finalW_nat _ wo k w (as.map (applyMapper m))
      (by rw [hmap, List.getElem?_set_eq hk])]
  rw [hMF]
  by_cases hlab : (applyMapper m ⟨0, 0, w, kNoStateId⟩).ilabel ≠ 0 ∨
      (applyMapper m ⟨0, 0, w, kNoStateId⟩).olabel ≠ 0
  · rw [if_pos hlab]
    have hsf := FstM.setFinal_states_eq
      ((f1.mapArcsAt (k : Int) (applyMapper m)).setProps kError kError)
      (applyMapper m ⟨0, 0, w, kNoStateId⟩).weight k w (as.map (applyMapper m))
      (by
        simp only [FstM.setProps_states]
        rw [hmap, List.getElem?_set_eq hk])
    refine ⟨?_, ?_, rfl⟩
    · rw [hsf]
      simp only [FstM.setProps_states]
      rw [hmap, List.set_set]
    · rw [FstM.setFinal_start, FstM.setProps_start, FstM.mapArcsAt_start]
  · rw [if_neg hlab]
    have hsf := FstM.setFinal_states_eq
      (f1.mapArcsAt (k : Int) (applyMapper m))
      (applyMapper m ⟨0, 0, w, kNoStateId⟩).weight k w (as.map (applyMapper m))
      (by rw [hmap, List.getElem?_set_eq hk])
    refine ⟨?_, ?_, rfl⟩
    · rw [hsf, hmap, List.set_set]
    · rw [FstM.setFinal_start, FstM.mapArcsAt_start]

lemma ArcMapInPlaceStep_require_main (wo : Wops V) (m : ArcMapper V)
    (k : Nat) (f1 : FstM V) (sf : Int) (w : V) (as : List (Arc V))
    (hk : k < f1.states.length)
    (hgetk : f1.states[k]? = some (w, as))
    (hne : (k : Int) ≠ sf)
    (hfa : m.finalAction = MAP_REQUIRE_SUPERFINAL) :
    (ArcMapInPlaceStep wo m (f1, sf) k).1.states =
      f1.states.set k (wo.zero,
        as.map (applyMapper m) ++
          (if (applyMapper m ⟨0, 0, w, kNoStateId⟩).ilabel ≠ 0 ∨
              (applyMapper m ⟨0, 0, w, kNoStateId⟩).olabel ≠ 0 ∨
              (applyMapper m ⟨0, 0, w, kNoStateId⟩).weight ≠ wo.zero then
            [⟨(applyMapper m ⟨0, 0, w, kNoStateId⟩).ilabel,
              (applyMapper m ⟨0, 0, w, kNoStateId⟩).olabel,
              (applyMapper m ⟨0, 0, w, kNoStateId⟩).weight, sf⟩] else [])) ∧
    (ArcMapInPlaceStep wo m (f1, sf) k).1.start = f1.start ∧
    (ArcMapInPlaceStep wo m (f1, sf) k).2 = sf := by
  unfold ArcMapInPlaceStep
  dsimp only
  rw [hfa]
  dsimp only
  rw [if_neg hne]
  have hmap := FstM.mapArcsAt_states_eq f1 k w as (applyMapper m) hgetk
  have hMF : mappedFinalArc wo m (f1.mapArcsAt (k : Int) (applyMapper m)) (k : Int) =
      applyMapper m ⟨0, 0, w, kNoStateId⟩ := by
    unfold mappedFinalArc pseudoArc
    rw [FstM.finalW_nat _ wo k w (as.map (applyMapper m))
      (by rw [hmap, List.getElem?_set_eq hk])]
  rw [hMF]
  by_cases hcond : (applyMapper m ⟨0, 0, w, kNoStateId⟩).ilabel ≠ 0 ∨
      (applyMapper m ⟨0, 0, w, kNoStateId⟩).olabel ≠ 0 ∨
      (applyMapper m ⟨0, 0, w, kNoStateId⟩).weight ≠ wo.zero
  · rw [if_pos hcond]
    have hadd := FstM.addArc_states_eq
      (f1.mapArcsAt (k : Int) (applyMapper m))
      ⟨(applyMapper m ⟨0, 0, w, kNoStateId⟩).ilabel,
        (applyMapper m ⟨0, 0, w, kNoStateId⟩).olabel,
        (applyMapper m ⟨0, 0, w, kNoStateId⟩).weight, sf⟩ k w (as.map (applyMapper m))
      (by rw [hmap, List.getElem?_set_eq hk])
    have hsf := FstM.setFinal_states_eq
      ((f1.mapArcsAt (k : Int) (applyMapper m)).addArc (k : Int)
        ⟨(applyMapper m ⟨0, 0, w, kNoStateId⟩).ilabel,
          (applyMapper m ⟨0, 0, w, kNoStateId⟩).olabel,
          (applyMapper m ⟨0, 0, w, kNoStateId⟩).weight, sf⟩)
      wo.zero k w
      (as.map (applyMapper m) ++
        [⟨(applyMapper m ⟨0, 0, w, kNoStateId⟩).ilabel,
          (applyMapper m ⟨0, 0, w, kNoStateId⟩).olabel,
          (applyMapper m ⟨0, 0, w, kNoStateId⟩).weight, sf⟩])
      (by
        rw [hadd, hmap, List.set_set, List.getElem?_set_eq hk])
    refine ⟨?_, ?_, rfl⟩
    · rw [hsf, hadd, hmap]
      rw [List.set_set, List.set_set, if_pos hcond]
    · rw [FstM.setFinal_start, FstM.addArc_start, FstM.mapArcsAt_start]
  · rw [if_neg hcond]
    have hsf := FstM.setFinal_states_eq
      (f1.mapArcsAt (k : Int) (applyMapper m))
      wo.zero k w (as.map (applyMapper m))
      (by rw [hmap, List.getElem?_set_eq hk])
    refine ⟨?_, ?_, rfl⟩
    · rw [hsf, hmap, List.set_set, if_neg hcond, List.append_nil]
    · rw [FstM.setFinal_start, FstM.mapArcsAt_start]

lemma ArcMapInPlaceStep_superfinal (wo : Wops V) (m : ArcMapper V)
    (k : Nat) (f1 : FstM V) (w : V)
    (hgetk : f1.states[k]? = some (w, []))
    (hfa : m.finalAction = MAP_REQUIRE_SUPERFINAL ∨ m.finalAction = MAP_ALLOW_SUPERFINAL) :
    ArcMapInPlaceStep wo m (f1, (k : Int)) k = (f1, (k : Int)) := by
  unfold ArcMapInPlaceStep
  dsimp only
  have hmap := FstM.mapArcsAt_states_eq f1 k w [] (applyMapper m) hgetk
  have hfix : f1.mapArcsAt (k : Int) (applyMapper m) = f1 := by
    have : (f1.mapArcsAt (k : Int) (applyMapper m)).states = f1.states := by
      rw [hmap]
      exact set_getElem_self f1.states k (w, []) (by simpa using hgetk)
    unfold FstM.mapArcsAt at this ⊢
    rw [if_neg (by omega : ¬ ((k : Int) < 0))] at this ⊢
    simp only [Int.toNat_ofNat] at this ⊢
    rw [hgetk] at this ⊢
    cases f1
    simp_all
  rcases hfa with h | h <;> rw [h] <;> dsimp only <;> rw [if_pos rfl, hfix]

/-- Per-state outcome of the in-place ArcMap under MAP_NO_SUPERFINAL. -/
lemma ArcMapInPlace_no_spec (wo : Wops V) (m : ArcMapper V) (fst0 : FstM V)
    (hstart : fst0.start ≠ kNoStateId)
    (hfa : m.finalAction = MAP_NO_SUPERFINAL) :
    (ArcMapInPlace wo m fst0).states.length = fst0.states.length ∧
    (ArcMapInPlace wo m fst0).start = fst0.start ∧
    (∀ s : Nat, s < fst0.states.length →
      (ArcMapInPlace wo m fst0).states[s]? =
        some ((mappedFinalArc wo m fst0 (s : Int)).weight,
          (fst0.arcsOf (s : Int)).map (applyMapper m))) := by
  have hnreq : ¬ m.finalAction = MAP_REQUIRE_SUPERFINAL := by
    rw [hfa]
    exact fun hc => by cases hc
  unfold ArcMapInPlace
  dsimp only
  rw [if_neg hstart, if_neg hnreq]
  dsimp only
  simp only [FstM.numStates_eq_length]
  rw [if_neg (by
    rw [hfa]
    rintro ⟨hc, _⟩
    cases hc)]
  have key : ∀ st0 : FstM V × Int,
      st0.1.states.length = fst0.states.length →
      st0.1.start = fst0.start →
      (∀ s : Nat, s < fst0.states.length → st0.1.states[s]? = fst0.states[s]?) →
      ((List.range fst0.states.length).foldl
          (ArcMapInPlaceStep wo m) st0).1.states.length = fst0.states.length ∧
      ((List.range fst0.states.length).foldl
          (ArcMapInPlaceStep wo m) st0).1.start = fst0.start ∧
      ∀ s : Nat, s < fst0.states.length →
        ((List.range fst0.states.length).foldl
            (ArcMapInPlaceStep wo m) st0).1.states[s]? =
          some ((mappedFinalArc wo m fst0 (s : Int)).weight,
            (fst0.arcsOf (s : Int)).map (applyMapper m)) := by
    intro st0 hlen0 hstart0 hslot0
    have inv := foldl_range_ind (ArcMapInPlaceStep wo m)
      (fun k st =>
        st.1.states.length = fst0.states.length ∧
        st.1.start = fst0.start ∧
        ∀ s : Nat, s < fst0.states.length →
          st.1.states[s]? = (if s < k then
            some ((mappedFinalArc wo m fst0 (s : Int)).weight,
              (fst0.arcsOf (s : Int)).map (applyMapper m))
            else fst0.states[s]?))
      fst0.states.length st0
      (by
        refine ⟨hlen0, hstart0, ?_⟩
        intro s hs
        rw [hslot0 s hs, if_neg (by omega)])
      (by
        intro k st hk hP
        obtain ⟨f1, sf⟩ := st
        obtain ⟨hlen, hst, hget⟩ := hP
        dsimp only at hlen hst hget
        obtain ⟨w, as, hw⟩ : ∃ w as, fst0.states[k]? = some (w, as) := by
          rcases hx : fst0.states[k]? with _ | ⟨w, as⟩
          · rw [List.getElem?_eq_none_iff] at hx
            omega
          · exact ⟨w, as, rfl⟩
        obtain ⟨hstates, hstart2, _⟩ := ArcMapInPlaceStep_no wo m k f1 sf w as
          (by omega)
          (by rw [hget k hk, if_neg (Nat.lt_irrefl k), hw]) hfa
        have hdone : ((applyMapper m ⟨0, 0, w, kNoStateId⟩).weight,
            as.map (applyMapper m)) =
            ((mappedFinalArc wo m fst0 (k : Int)).weight,
              (fst0.arcsOf (k : Int)).map (applyMapper m)) := by
          rw [FstM.arcsOf_nat fst0 k w as hw]
          unfold mappedFinalArc pseudoArc
          rw [FstM.finalW_nat fst0 wo k w as hw]
        refine ⟨by rw [hstates]; simp [hlen], by rw [hstart2, hst], ?_⟩
        intro s hs
        rw [hstates]
        by_cases hsk : s = k
        · subst hsk
          rw [List.getElem?_set_eq (by omega), hdone,
            if_pos (Nat.lt_succ_self s)]
        · rw [List.getElem?_set_ne (fun he => hsk he.symm), hget s hs]
          by_cases hsl : s < k
          · rw [if_pos hsl, if_pos (by omega)]
          · rw [if_neg hsl, if_neg (by omega)])
    obtain ⟨i1, i2, i3⟩ := inv
    refine ⟨i1, i2, ?_⟩
    intro s hs
    rw [i3 s hs, if_pos hs]
  obtain ⟨hlen, hst, hget⟩ := key ({ fst0 with
      isyms := if m.isymsAction = MAP_CLEAR_SYMBOLS then none else fst0.isyms,
      osyms := if m.osymsAction = MAP_CLEAR_SYMBOLS then none else fst0.osyms },
    kNoStateId) rfl rfl (fun _ _ => rfl)
  refine ⟨by simpa using hlen, by simpa using hst, ?_⟩
  intro s hs
  simp only [FstM.setProps_states]
  exact hget s hs

/-- Per-state outcome of the in-place ArcMap under MAP_REQUIRE_SUPERFINAL:
the superfinal state is appended at index n before the loop, keeps final
weight One and no arcs, every original state ends with final weight Zero,
and each original state's arc list is its mapped arcs plus one arc into the
superfinal state unless the mapped pseudo-arc is epsilon-labelled with
weight Zero. -/
lemma ArcMapInPlace_require_spec (wo : Wops V) (m : ArcMapper V) (fst0 : FstM V)
    (hstart : fst0.start ≠ kNoStateId)
    (hfa : m.finalAction = MAP_REQUIRE_SUPERFINAL) :
    (ArcMapInPlace wo m fst0).states.length = fst0.states.length + 1 ∧
    (ArcMapInPlace wo m fst0).start = fst0.start ∧
    (ArcMapInPlace wo m fst0).states[fst0.states.length]? = some (wo.one, []) ∧
    (∀ s : Nat, s < fst0.states.length →
      (ArcMapInPlace wo m fst0).states[s]? =
        some (wo.zero,
          (fst0.arcsOf (s : Int)).map (applyMapper m) ++
            (if requireArcB wo m fst0 (s : Int) = true then
              [⟨(mappedFinalArc wo m fst0 (s : Int)).ilabel,
                (mappedFinalArc wo m fst0 (s : Int)).olabel,
                (mappedFinalArc wo m fst0 (s : Int)).weight,
                (fst0.states.length : Int)⟩] else []))) := by
  unfold ArcMapInPlace
  dsimp only
  rw [if_neg hstart, if_pos hfa]
  dsimp only
  simp only [FstM.numStates_eq_length, FstM.setFinal_length, FstM.addState_fst_states,
    List.length_append, List.length_singleton]
  rw [if_neg (by
    rw [hfa]
    rintro ⟨hc, _⟩
    cases hc)]
  have key : ∀ st0 : FstM V × Int,
      st0.2 = (fst0.states.length : Int) →
      st0.1.states.length = fst0.states.length + 1 →
      st0.1.start = fst0.start →
      st0.1.states[fst0.states.length]? = some (wo.one, []) →
      (∀ s : Nat, s < fst0.states.length → st0.1.states[s]? = fst0.states[s]?) →
      ((List.range (fst0.states.length + 1)).foldl
          (ArcMapInPlaceStep wo m) st0).1.states.length = fst0.states.length + 1 ∧
      ((List.range (fst0.states.length + 1)).foldl
          (ArcMapInPlaceStep wo m) st0).1.start = fst0.start ∧
      ((List.range (fst0.states.length + 1)).foldl
          (ArcMapInPlaceStep wo m) st0).1.states[fst0.states.length]? =
        some (wo.one, []) ∧
      ∀ s : Nat, s < fst0.states.length →
        ((List.range (fst0.states.length + 1)).foldl
            (ArcMapInPlaceStep wo m) st0).1.states[s]? =
          some (wo.zero,
            (fst0.arcsOf (s : Int)).map (applyMapper m) ++
              (if requireArcB wo m fst0 (s : Int) = true then
                [⟨(mappedFinalArc wo m fst0 (s : Int)).ilabel,
                  (mappedFinalArc wo m fst0 (s : Int)).olabel,
                  (mappedFinalArc wo m fst0 (s : Int)).weight,
                  (fst0.states.length : Int)⟩] else [])) := by
    intro st0 h2 hlen0 hstart0 hslotn0 hslot0
    have inv := foldl_range_ind (ArcMapInPlaceStep wo m)
      (fun k st =>
        st.2 = (fst0.states.length : Int) ∧
        st.1.states.length = fst0.states.length + 1 ∧
        st.1.start = fst0.start ∧
        st.1.states[fst0.states.length]? = some (wo.one, []) ∧
        ∀ s : Nat, s < fst0.states.length →
          st.1.states[s]? = (if s < k then
            some (wo.zero,
              (fst0.arcsOf (s : Int)).map (applyMapper m) ++
                (if requireArcB wo m fst0 (s : Int) = true then
                  [⟨(mappedFinalArc wo m fst0 (s : Int)).ilabel,
                    (mappedFinalArc wo m fst0 (s : Int)).olabel,
                    (mappedFinalArc wo m fst0 (s : Int)).weight,
                    (fst0.states.length : Int)⟩] else []))
            else fst0.states[s]?))
      (fst0.states.length + 1) st0
      (by
        refine ⟨h2, hlen0, hstart0, hslotn0, ?_⟩
        intro s hs
        rw [hslot0 s hs, if_neg (by omega)])
      (by
        intro k st hk hP
        obtain ⟨f1, sf⟩ := st
        obtain ⟨hsf, hlen, hst, hslotn, hget⟩ := hP
        dsimp only at hsf hlen hst hslotn hget
        subst hsf
        by_cases hkn : k = fst0.states.length
        · subst hkn
          have hid := ArcMapInPlaceStep_superfinal wo m fst0.states.length f1 wo.one hslotn
            (Or.inl hfa)
          rw [hid]
          refine ⟨rfl, hlen, hst, hslotn, ?_⟩
          intro s hs
          rw [hget s hs, if_pos hs,
            if_pos (show s < fst0.states.length + 1 by omega)]
        · obtain ⟨w, as, hw⟩ : ∃ w as, fst0.states[k]? = some (w, as) := by
            rcases hx : fst0.states[k]? with _ | ⟨w, as⟩
            · rw [List.getElem?_eq_none_iff] at hx
              omega
            · exact ⟨w, as, rfl⟩
          obtain ⟨hstates, hstart2, hsf2⟩ := ArcMapInPlaceStep_require_main wo m k f1
            (fst0.states.length : Int) w as (by omega)
            (by rw [hget k (by omega), if_neg (Nat.lt_irrefl k), hw])
            (by omega) hfa
          have hdone : (applyMapper m ⟨0, 0, w, kNoStateId⟩) =
              mappedFinalArc wo m fst0 (k : Int) := by
            unfold mappedFinalArc pseudoArc
            rw [FstM.finalW_nat fst0 wo k w as hw]
          have harcs : as = fst0.arcsOf (k : Int) :=
            (FstM.arcsOf_nat fst0 k w as hw).symm
          have hcondiff : ((applyMapper m ⟨0, 0, w, kNoStateId⟩).ilabel ≠ 0 ∨
              (applyMapper m ⟨0, 0, w, kNoStateId⟩).olabel ≠ 0 ∨
              (applyMapper m ⟨0, 0, w, kNoStateId⟩).weight ≠ wo.zero) ↔
              requireArcB wo m fst0 (k : Int) = true := by
            rw [hdone]
            exact (requireArcB_iff wo m fst0 (k : Int)).symm
          refine ⟨hsf2, by rw [hstates]; simp [hlen], by rw [hstart2, hst], ?_, ?_⟩
          · rw [hstates]
            rw [List.getElem?_set_ne (by omega)]
            exact hslotn
          · intro s hs
            rw [hstates]
            by_cases hsk : s = k
            · subst hsk
              rw [List.getElem?_set_eq (by omega), if_pos (Nat.lt_succ_self s)]
              by_cases hc : requireArcB wo m fst0 (s : Int) = true
              · rw [if_pos (hcondiff.mpr hc), if_pos hc, hdone, ← harcs]
              · rw [if_neg (fun hx => hc (hcondiff.mp hx)), if_neg hc, ← harcs]
            · rw [List.getElem?_set_ne (fun he => hsk he.symm), hget s hs]
              by_cases hsl : s < k
              · rw [if_pos hsl, if_pos (show s < k + 1 by omega)]
              · rw [if_neg hsl, if_neg (show ¬ s < k + 1 by omega)])
    obtain ⟨_, i2, i3, i4, i5⟩ := inv
    refine ⟨i2, i3, i4, ?_⟩
    intro s hs
    rw [i5 s hs, if_pos (by omega)]
  set A2 := ({ fst0 with
      isyms := if m.isymsAction = MAP_CLEAR_SYMBOLS then none else fst0.isyms,
      osyms := if m.osymsAction = MAP_CLEAR_SYMBOLS then none else fst0.osyms } : FstM V)
    with hA2
  obtain ⟨hlen, hst, hslotn, hget⟩ := key
    ((A2.addState wo).1.setFinal (A2.addState wo).2 wo.one, (A2.addState wo).2)
    (by simp [hA2])
    (by simp [hA2])
    (by simp [hA2])
    (by
      rw [addState_setFinal_one wo A2]
      have hAlen : A2.states.length = fst0.states.length := by simp [hA2]
      rw [← hAlen]
      exact List.getElem?_concat_length _ _)
    (by
      intro s hs
      rw [addState_setFinal_one wo A2]
      rw [List.getElem?_append_left (by simp [hA2]; exact hs)])
  refine ⟨?_, ?_, ?_, ?_⟩
  · simpa using hlen
  · simpa using hst
  · simpa using hslotn
  · intro s hs
    simp only [FstM.setProps_states]
    exact hget s hs

/-- C2: mapping a non-empty source automaton with a MAP_REQUIRE_SUPERFINAL
policy - by the eager copying algorithm and by the eager in-place algorithm
alike - yields exactly one state with final weight One (the superfinal
state, which is added even when no source state is final and carries no
arcs) while every other state has final weight Zero, and each state's arc
list is its mapped regular arcs plus exactly one extra arc into the
superfinal state, unless the mapped final pseudo-arc has epsilon labels and
weight Zero. -/
theorem arcmap_require_superfinal_invariant (wo : Wops V) (m : ArcMapper V) (fst : FstM V)
    (hstart : fst.start ≠ kNoStateId)
    (hfa : m.finalAction = MAP_REQUIRE_SUPERFINAL) :
    ((ArcMapCopy wo m fst).numStates = fst.numStates + 1 ∧
     (ArcMapCopy wo m fst).finalW wo (fst.numStates : Int) = wo.one ∧
     (ArcMapCopy wo m fst).arcsOf (fst.numStates : Int) = [] ∧
     (∀ s : Nat, s < fst.numStates →
        (ArcMapCopy wo m fst).finalW wo (s : Int) = wo.zero) ∧
     (∀ s : Nat, s < fst.numStates →
        (ArcMapCopy wo m fst).arcsOf (s : Int) =
          (fst.arcsOf (s : Int)).map (applyMapper m) ++
            (if requireArcB wo m fst (s : Int) = true then
              [⟨(mappedFinalArc wo m fst (s : Int)).ilabel,
                (mappedFinalArc wo m fst (s : Int)).olabel,
                (mappedFinalArc wo m fst (s : Int)).weight,
                (fst.numStates : Int)⟩] else []))) ∧
    ((ArcMapInPlace wo m fst).numStates = fst.numStates + 1 ∧
     (ArcMapInPlace wo m fst).finalW wo (fst.numStates : Int) = wo.one ∧
     (ArcMapInPlace wo m fst).arcsOf (fst.numStates : Int) = [] ∧
     (∀ s : Nat, s < fst.numStates →
        (ArcMapInPlace wo m fst).finalW wo (s : Int) = wo.zero) ∧
     (∀ s : Nat, s < fst.numStates →
        (ArcMapInPlace wo m fst).arcsOf (s : Int) =
          (fst.arcsOf (s : Int)).map (applyMapper m) ++
            (if requireArcB wo m fst (s : Int) = true then
              [⟨(mappedFinalArc wo m fst (s : Int)).ilabel,
                (mappedFinalArc wo m fst (s : Int)).olabel,
                (mappedFinalArc wo m fst (s : Int)).weight,
                (fst.numStates : Int)⟩] else []))) := by
  obtain ⟨clen, _, cslotn, cget⟩ := ArcMapCopy_require_spec wo m fst hstart hfa
  obtain ⟨plen, _, pslotn, pget⟩ := ArcMapInPlace_require_spec wo m fst hstart hfa
  simp only [FstM.numStates_eq_length]
  refine ⟨⟨clen, ?_, ?_, ?_, ?_⟩, ⟨plen, ?_, ?_, ?_, ?_⟩⟩
  · exact FstM.finalW_nat _ wo fst.states.length wo.one [] cslotn
  · exact FstM.arcsOf_nat _ fst.states.length wo.one [] cslotn
  · intro s hs
    exact FstM.finalW_nat _ wo s wo.zero _ (cget s hs)
  · intro s hs
    exact FstM.arcsOf_nat _ s wo.zero _ (cget s hs)
  · exact FstM.finalW_nat _ wo fst.states.length wo.one [] pslotn
  · exact FstM.arcsOf_nat _ fst.states.length wo.one [] pslotn
  · intro s hs
    exact FstM.finalW_nat _ wo s wo.zero _ (pget s hs)
  · intro s hs
    exact FstM.arcsOf_nat _ s wo.zero _ (pget s hs)

/-- Witness for C2 at a concrete two-state cyclic automaton with the
require-superfinal identity mapper. -/
theorem arcmap_require_superfinal_invariant_witness :
    ((ArcMapCopy natW requireMapper fstCycle).numStates = fstCycle.numStates + 1 ∧
     (ArcMapCopy natW requireMapper fstCycle).finalW natW (fstCycle.numStates : Int) =
       natW.one ∧
     (ArcMapCopy natW requireMapper fstCycle).arcsOf (fstCycle.numStates : Int) = [] ∧
     (∀ s : Nat, s < fstCycle.numStates →
        (ArcMapCopy natW requireMapper fstCycle).finalW natW (s : Int) = natW.zero) ∧
     (∀ s : Nat, s < fstCycle.numStates →
        (ArcMapCopy natW requireMapper fstCycle).arcsOf (s : Int) =
          (fstCycle.arcsOf (s : Int)).map (applyMapper requireMapper) ++
            (if requireArcB natW requireMapper fstCycle (s : Int) = true then
              [⟨(mappedFinalArc natW requireMapper fstCycle (s : Int)).ilabel,
                (mappedFinalArc natW requireMapper fstCycle (s : Int)).olabel,
                (mappedFinalArc natW requireMapper fstCycle (s : Int)).weight,
                (fstCycle.numStates : Int)⟩] else []))) ∧
    ((ArcMapInPlace natW requireMapper fstCycle).numStates = fstCycle.numStates + 1 ∧
     (ArcMapInPlace natW requireMapper fstCycle).finalW natW (fstCycle.numStates : Int) =
       natW.one ∧
     (ArcMapInPlace natW requireMapper fstCycle).arcsOf (fstCycle.numStates : Int) = [] ∧
     (∀ s : Nat, s < fstCycle.numStates →
        (ArcMapInPlace natW requireMapper fstCycle).finalW natW (s : Int) = natW.zero) ∧
     (∀ s : Nat, s < fstCycle.numStates →
        (ArcMapInPlace natW requireMapper fstCycle).arcsOf (s : Int) =
          (fstCycle.arcsOf (s : Int)).map (applyMapper requireMapper) ++
            (if requireArcB natW requireMapper fstCycle (s : Int) = true then
              [⟨(mappedFinalArc natW requireMapper fstCycle (s : Int)).ilabel,
                (mappedFinalArc natW requireMapper fstCycle (s : Int)).olabel,
                (mappedFinalArc natW requireMapper fstCycle (s : Int)).weight,
                (fstCycle.numStates : Int)⟩] else []))) :=
  arcmap_require_superfinal_invariant natW requireMapper fstCycle
    (by decide) (by decide)

end EagerSpecs

/-! Error-bit propagation through the eager maps under MAP_NO_SUPERFINAL,
and the lazy wrapper's deferral of the same check to the first Final
query. -/

section ClaimC6

variable {V : Type} [DecidableEq V]

lemma finalTriggerB_true_iff (wo : Wops V) (m : ArcMapper V) (f : FstM V) (s : Int) :
    finalTriggerB wo m f s = true ↔
      ((mappedFinalArc wo m f s).ilabel ≠ 0 ∨ (mappedFinalArc wo m f s).olabel ≠ 0) := by
  unfold finalTriggerB
  simp

/-- Every branch of the copying loop body keeps the error bit once set:
the mutation primitives preserve the property word and SetProperties is
sticky on kError. -/
lemma ArcMapCopyStep_errBit_mono (wo : Wops V) (m : ArcMapper V) (ifst : FstM V)
    (st : FstM V × Int) (k : Nat)
    (h : st.1.props.testBit 2 = true) :
    (ArcMapCopyStep wo m ifst st k).1.props.testBit 2 = true := by
  unfold ArcMapCopyStep
  dsimp only
  obtain ⟨-, -, hprops, -, -⟩ := foldl_preserve_fields
    (fun (g : FstM V) (a : Arc V) => g.addArc (k : Int) (applyMapper m a))
    (fun g a => ⟨by simp, by simp, by simp, by simp, by simp⟩)
    (ifst.arcsOf (k : Int))
    (if (k : Int) = ifst.start then st.1.setStart (k : Int) else st.1)
  have hbase : (if (k : Int) = ifst.start then st.1.setStart (k : Int) else st.1).props =
      st.1.props := by
    split <;> simp
  rw [hbase] at hprops
  cases hact : m.finalAction <;> dsimp only
  · split
    · simp [setPropsMask_testBit2, hprops, h]
    · simp [hprops, h]
  · split
    · split
      · simp [hprops, h]
      · simp [hprops, h]
    · simp [hprops, h]
  · split
    · simp [hprops, h]
    · simp [hprops, h]

/-- Processing a MAP_NO_SUPERFINAL contract-violating state in the copying
loop sets the error bit, whatever the incoming fold state. -/
lemma ArcMapCopyStep_errBit_set (wo : Wops V) (m : ArcMapper V) (ifst : FstM V)
    (st : FstM V × Int) (k : Nat)
    (hfa : m.finalAction = MAP_NO_SUPERFINAL)
    (htrig : finalTriggerB wo m ifst (k : Int) = true) :
    (ArcMapCopyStep wo m ifst st k).1.props.testBit 2 = true := by
  unfold ArcMapCopyStep
  dsimp only
  rw [hfa]
  dsimp only
  rw [if_pos ((finalTriggerB_true_iff wo m ifst (k : Int)).mp htrig)]
  simp [setPropsMask_testBit2, kError_testBit2]

/-- A MAP_NO_SUPERFINAL contract violation at some state sets the error bit
on the copying ArcMap's output. -/
lemma ArcMapCopy_errBit (wo : Wops V) (m : ArcMapper V) (ifst : FstM V) (sbad : Nat)
    (hstart : ifst.start ≠ kNoStateId)
    (hfa : m.finalAction = MAP_NO_SUPERFINAL)
    (hsb : sbad < ifst.numStates)
    (htrig : finalTriggerB wo m ifst (sbad : Int) = true) :
    (ArcMapCopy wo m ifst).props &&& kError ≠ 0 := by
  unfold ArcMapCopy
  rw [if_neg hstart]
  dsimp only
  rw [if_neg (by rw [hfa]; exact fun hc => by cases hc)]
  rw [errBit_iff]
  simp only [FstM.setProps_props, setPropsMask_testBit2]
  have key := foldl_range_ind (ArcMapCopyStep wo m ifst)
    (fun k st => sbad < k → st.1.props.testBit 2 = true)
    ifst.numStates
    ({ start := kNoStateId, states := List.replicate ifst.numStates (wo.zero, []),
       props := 0, isyms := symsFresh m.isymsAction ifst.isyms,
       osyms := symsFresh m.osymsAction ifst.osyms }, kNoStateId)
    (by intro hc; omega)
    (by
      intro k stk hk hP hlt
      by_cases hks : k = sbad
      · subst hks
        exact ArcMapCopyStep_errBit_set wo m ifst stk k hfa htrig
      · exact ArcMapCopyStep_errBit_mono wo m ifst stk k (hP (by omega)))
  rw [key hsb]
  simp

/-- Every branch of the in-place loop body keeps the error bit once set. -/
lemma ArcMapInPlaceStep_errBit_mono (wo : Wops V) (m : ArcMapper V)
    (st : FstM V × Int) (k : Nat)
    (h : st.1.props.testBit 2 = true) :
    (ArcMapInPlaceStep wo m st k).1.props.testBit 2 = true := by
  unfold ArcMapInPlaceStep
  dsimp only
  cases hact : m.finalAction <;> dsimp only
  · split
    · simp [setPropsMask_testBit2, h]
    · simp [h]
  · split
    · simpa using h
    · split
      · split
        · simp [h]
        · simp [h]
      · simp [h]
  · split
    · simpa using h
    · split
      · simp [h]
      · simp [h]

/-- Processing a MAP_NO_SUPERFINAL contract-violating state in the in-place
loop sets the error bit: the state's final weight is still the source's at
that point, so the trigger is evaluated on the original weight. -/
lemma ArcMapInPlaceStep_errBit_set (wo : Wops V) (m : ArcMapper V)
    (k : Nat) (f1 : FstM V) (sf : Int) (w : V) (as : List (Arc V))
    (hk : k < f1.states.length)
    (hgetk : f1.states[k]? = some (w, as))
    (hfa : m.finalAction = MAP_NO_SUPERFINAL)
    (htrig : (applyMapper m ⟨0, 0, w, kNoStateId⟩).ilabel ≠ 0 ∨
      (applyMapper m ⟨0, 0, w, kNoStateId⟩).olabel ≠ 0) :
    (ArcMapInPlaceStep wo m (f1, sf) k).1.props.testBit 2 = true := by
  unfold ArcMapInPlaceStep
  dsimp only
  rw [hfa]
  dsimp only
  have hmap := FstM.mapArcsAt_states_eq f1 k w as (applyMapper m) hgetk
  have hMF : mappedFinalArc wo m (f1.mapArcsAt (k : Int) (applyMapper m)) (k : Int) =
      applyMapper m ⟨0, 0, w, kNoStateId⟩ := by
    unfold mappedFinalArc pseudoArc
    rw [FstM.finalW_nat _ wo k w (as.map (applyMapper m))
      (by rw [hmap, List.getElem?_set_eq hk])]
  rw [hMF, if_pos htrig]
  simp [setPropsMask_testBit2, kError_testBit2]

/-- A MAP_NO_SUPERFINAL contract violation at some state sets the error bit
on the in-place ArcMap's output. -/
lemma ArcMapInPlace_errBit (wo : Wops V) (m : ArcMapper V) (fst0 : FstM V) (sbad : Nat)
    (hstart : fst0.start ≠ kNoStateId)
    (hfa : m.finalAction = MAP_NO_SUPERFINAL)
    (hsb : sbad < fst0.numStates)
    (htrig : finalTriggerB wo m fst0 (sbad : Int) = true) :
    (ArcMapInPlace wo m fst0).props &&& kError ≠ 0 := by
  have hnreq : ¬ m.finalAction = MAP_REQUIRE_SUPERFINAL := by
    rw [hfa]
    exact fun hc => by cases hc
  unfold ArcMapInPlace
  dsimp only
  rw [if_neg hstart, if_neg hnreq]
  dsimp only
  simp only [FstM.numStates_eq_length] at hsb ⊢
  rw [if_neg (by
    rw [hfa]
    rintro ⟨hc, _⟩
    cases hc)]
  rw [errBit_iff]
  simp only [FstM.setProps_props, setPropsMask_testBit2]
  obtain ⟨w, as, hw⟩ : ∃ w as, fst0.states[sbad]? = some (w, as) := by
    rcases hx : fst0.states[sbad]? with _ | ⟨w, as⟩
    · rw [List.getElem?_eq_none_iff] at hx
      omega
    · exact ⟨w, as, rfl⟩
  have htrig2 : (applyMapper m ⟨0, 0, w, kNoStateId⟩).ilabel ≠ 0 ∨
      (applyMapper m ⟨0, 0, w, kNoStateId⟩).olabel ≠ 0 := by
    have := (finalTriggerB_true_iff wo m fst0 (sbad : Int)).mp htrig
    have hMF : mappedFinalArc wo m fst0 (sbad : Int) =
        applyMapper m ⟨0, 0, w, kNoStateId⟩ := by
      unfold mappedFinalArc pseudoArc
      rw [FstM.finalW_nat fst0 wo sbad w as hw]
    rwa [hMF] at this
  have key := foldl_range_ind (ArcMapInPlaceStep wo m)
    (fun k st =>
      st.1.states.length = fst0.states.length ∧
      (∀ s : Nat, k ≤ s → s < fst0.states.length → st.1.states[s]? = fst0.states[s]?) ∧
      (sbad < k → st.1.props.testBit 2 = true))
    fst0.states.length
    ({ fst0 with
        isyms := if m.isymsAction = MAP_CLEAR_SYMBOLS then none else fst0.isyms,
        osyms := if m.osymsAction = MAP_CLEAR_SYMBOLS then none else fst0.osyms },
      kNoStateId)
    (by
      refine ⟨rfl, fun s _ _ => rfl, ?_⟩
      intro hc
      omega)
    (by
      intro k stk hk hP
      obtain ⟨f1, sf⟩ := stk
      obtain ⟨hlen, hslots, herr⟩ := hP
      dsimp only at hlen hslots herr
      obtain ⟨wk, ask, hwk⟩ : ∃ wk ask, fst0.states[k]? = some (wk, ask) := by
        rcases hx : fst0.states[k]? with _ | ⟨wk, ask⟩
        · rw [List.getElem?_eq_none_iff] at hx
          omega
        · exact ⟨wk, ask, rfl⟩
      have hcur : f1.states[k]? = some (wk, ask) := by
        rw [hslots k (Nat.le_refl k) hk]
        exact hwk
      obtain ⟨hstates, -, -⟩ := ArcMapInPlaceStep_no wo m k f1 sf wk ask
        (by omega) hcur hfa
      refine ⟨?_, ?_, ?_⟩
      · rw [hstates]
        simp [hlen]
      · intro s hks hs
        rw [hstates, List.getElem?_set_ne (by omega)]
        exact hslots s (by omega) hs
      · intro hlt
        by_cases hks : k = sbad
        · have hwk2 : f1.states[k]? = some (w, as) := by
            rw [hks, hslots sbad (by omega) hsb]
            exact hw
          exact ArcMapInPlaceStep_errBit_set wo m k f1 sf w as
            (by omega) hwk2 hfa htrig2
        · exact ArcMapInPlaceStep_errBit_mono wo m (f1, sf) k (herr (by omega)))
  obtain ⟨-, -, herr⟩ := key
  rw [herr hsb]
  simp

/-- ArcMapFstImpl::Init installs the mapper's view of the copied source
properties when the source has a start state; in particular no error bit
appears at construction when that view is clean. -/
lemma lazy_init_props (m : ArcMapper V) (fst : FstM V)
    (hstart : fst.start ≠ kNoStateId) :
    (ArcMapFstImpl.init m fst).props = m.propsFn (fst.props &&& kCopyProperties) := by
  unfold ArcMapFstImpl.init
  rw [if_neg hstart]

/-- First Final query of a MAP_NO_SUPERFINAL wrapper at a contract-violating
state: the error bit is set at that query and the mapped weight is cached as
the state's final weight. -/
lemma lazy_final_violation (wo : Wops V) (m : ArcMapper V) (fst : FstM V) (s : Int)
    (hstart : fst.start ≠ kNoStateId)
    (hfa : m.finalAction = MAP_NO_SUPERFINAL)
    (htrig : finalTriggerB wo m fst s = true) :
    (ArcMapFstImpl.finalOp wo (ArcMapFstImpl.startOp (ArcMapFstImpl.init m fst)) s).props
        &&& kError ≠ 0 ∧
    ArcMapFstImpl.cachedFinal wo
        (ArcMapFstImpl.finalOp wo (ArcMapFstImpl.startOp (ArcMapFstImpl.init m fst)) s) s =
      (mappedFinalArc wo m fst s).weight := by
  unfold ArcMapFstImpl.init
  rw [if_neg hstart]
  unfold ArcMapFstImpl.startOp
  rw [if_neg (by simp)]
  dsimp only
  unfold ArcMapFstImpl.finalOp
  rw [if_neg (by simp [ArcMapFstImpl.HasFinal])]
  dsimp only
  rw [hfa]
  dsimp only
  rw [if_neg (show ¬ MAP_NO_SUPERFINAL = MAP_REQUIRE_SUPERFINAL from fun hc => by cases hc)]
  have hfi : FindIState kNoStateId s = s := by
    unfold FindIState
    rw [if_pos (Or.inl rfl)]
  rw [hfi]
  rw [if_pos ((finalTriggerB_true_iff wo m fst s).mp htrig)]
  constructor
  · rw [errBit_iff]
    simp [ArcMapFstImpl.setFinalC, ArcMapFstImpl.setPropsI, ArcMapFstImpl.bumpCalls,
      setPropsMask_testBit2, kError_testBit2]
  · simp [ArcMapFstImpl.setFinalC, ArcMapFstImpl.setPropsI, ArcMapFstImpl.bumpCalls,
      ArcMapFstImpl.cachedFinal]

/-- C6: under MAP_NO_SUPERFINAL, a mapper returning a non-epsilon-labelled
arc for some state's final-weight pseudo-arc makes both eager algorithms set
the error bit on the output while still storing the mapped weight as that
state's final weight; the lazy wrapper, whose construction leaves the
property word error-free whenever the mapper's property transfer is clean,
sets the error bit at that state's first Final query and caches the mapped
weight there. -/
theorem arcmap_no_superfinal_violation (wo : Wops V) (m : ArcMapper V) (fst : FstM V)
    (sbad : Nat)
    (hstart : fst.start ≠ kNoStateId)
    (hfa : m.finalAction = MAP_NO_SUPERFINAL)
    (hsb : sbad < fst.numStates)
    (htrig : finalTriggerB wo m fst (sbad : Int) = true)
    (hclean : m.propsFn (fst.props &&& kCopyProperties) &&& kError = 0) :
    ((ArcMapCopy wo m fst).props &&& kError ≠ 0 ∧
     (ArcMapCopy wo m fst).finalW wo (sbad : Int) =
       (mappedFinalArc wo m fst (sbad : Int)).weight) ∧
    ((ArcMapInPlace wo m fst).props &&& kError ≠ 0 ∧
     (ArcMapInPlace wo m fst).finalW wo (sbad : Int) =
       (mappedFinalArc wo m fst (sbad : Int)).weight) ∧
    ((ArcMapFstImpl.init m fst).props &&& kError = 0 ∧
     (ArcMapFstImpl.finalOp wo (ArcMapFstImpl.startOp (ArcMapFstImpl.init m fst))
         (sbad : Int)).props &&& kError ≠ 0 ∧
     ArcMapFstImpl.cachedFinal wo
         (ArcMapFstImpl.finalOp wo (ArcMapFstImpl.startOp (ArcMapFstImpl.init m fst))
           (sbad : Int)) (sbad : Int) =
       (mappedFinalArc wo m fst (sbad : Int)).weight) := by
  simp only [FstM.numStates_eq_length] at hsb
  obtain ⟨-, -, cget⟩ := ArcMapCopy_plain_spec wo m fst hstart (Or.inl hfa)
  obtain ⟨-, -, pget⟩ := ArcMapInPlace_no_spec wo m fst hstart hfa
  obtain ⟨lerr, lcache⟩ := lazy_final_violation wo m fst (sbad : Int) hstart hfa htrig
  refine ⟨⟨?_, ?_⟩, ⟨?_, ?_⟩, ?_, lerr, lcache⟩
  · exact ArcMapCopy_errBit wo m fst sbad hstart hfa
      (by simpa [FstM.numStates_eq_length] using hsb) htrig
  · exact FstM.finalW_nat _ wo sbad _ _ (cget sbad hsb)
  · exact ArcMapInPlace_errBit wo m fst sbad hstart hfa
      (by simpa [FstM.numStates_eq_length] using hsb) htrig
  · exact FstM.finalW_nat _ wo sbad _ _ (pget sbad hsb)
  · rw [lazy_init_props m fst hstart]
    exact hclean

/-- Witness for C6: a single-state automaton with final weight 1 and a
mapper that relabels exactly that pseudo-arc. -/
theorem arcmap_no_superfinal_violation_witness :
    ((ArcMapCopy natW badNoSuperfinalMapper fstPlainOne).props &&& kError ≠ 0 ∧
     (ArcMapCopy natW badNoSuperfinalMapper fstPlainOne).finalW natW ((0 : Nat) : Int) =
       (mappedFinalArc natW badNoSuperfinalMapper fstPlainOne ((0 : Nat) : Int)).weight) ∧
    ((ArcMapInPlace natW badNoSuperfinalMapper fstPlainOne).props &&& kError ≠ 0 ∧
     (ArcMapInPlace natW badNoSuperfinalMapper fstPlainOne).finalW natW ((0 : Nat) : Int) =
       (mappedFinalArc natW badNoSuperfinalMapper fstPlainOne ((0 : Nat) : Int)).weight) ∧
    ((ArcMapFstImpl.init badNoSuperfinalMapper fstPlainOne).props &&& kError = 0 ∧
     (ArcMapFstImpl.finalOp natW
         (ArcMapFstImpl.startOp (ArcMapFstImpl.init badNoSuperfinalMapper fstPlainOne))
         (((0 : Nat)) : Int)).props &&& kError ≠ 0 ∧
     ArcMapFstImpl.cachedFinal natW
         (ArcMapFstImpl.finalOp natW
           (ArcMapFstImpl.startOp (ArcMapFstImpl.init badNoSuperfinalMapper fstPlainOne))
           (((0 : Nat)) : Int)) (((0 : Nat)) : Int) =
       (mappedFinalArc natW badNoSuperfinalMapper fstPlainOne ((0 : Nat) : Int)).weight) :=
  arcmap_no_superfinal_violation natW badNoSuperfinalMapper fstPlainOne 0
    (by decide) (by decide) (by decide) (by decide) (by decide)

end ClaimC6

/-! Characterization of the fully expanded lazy wrapper: per-visit effect of
Expand and Final, and the shape of the exposed automaton under each final
action. -/

section LazySpecs

variable {V : Type} [DecidableEq V]

lemma FindOStatePure_none (t : Int) : FindOStatePure kNoStateId t = t := by
  unfold FindOStatePure
  rw [if_pos (Or.inl rfl)]

lemma FindIState_none (t : Int) : FindIState kNoStateId t = t := by
  unfold FindIState
  rw [if_pos (Or.inl rfl)]

lemma FindOStatePure_zero (t : Int) (h : 0 ≤ t) : FindOStatePure 0 t = t + 1 := by
  unfold FindOStatePure
  rw [if_neg (by
    rintro (hc | hc)
    · unfold kNoStateId at hc
      omega
    · omega)]

lemma FindIState_zero (t : Int) (h : 1 ≤ t) : FindIState 0 t = t - 1 := by
  unfold FindIState
  rw [if_neg (by
    rintro (hc | hc)
    · unfold kNoStateId at hc
      omega
    · omega)]

/-- The arc-mapping fold inside Expand: it only advances the discovery
counter and the call counter of the impl, and appends the mapped,
renumbered source arcs to the accumulator in order. -/
lemma expand_arcfold_eq (l : List (Arc V)) :
    ∀ (i : ArcMapFstImpl V) (acc : List (Arc V)),
      ∃ ns cl,
        l.foldl (fun (p : ArcMapFstImpl V × List (Arc V)) a =>
          (ArcMapFstImpl.bumpCalls
            { src := p.1.src, m := p.1.m, finalAction := p.1.finalAction,
              superfinal := p.1.superfinal,
              nstates := (FindOState p.1.superfinal p.1.nstates a.nextstate).2,
              hasStart := p.1.hasStart, cstart := p.1.cstart, props := p.1.props,
              isyms := p.1.isyms, osyms := p.1.osyms, finalsC := p.1.finalsC,
              arcsC := p.1.arcsC, calls := p.1.calls },
           p.2 ++ [applyMapper p.1.m
             { a with nextstate := (FindOState p.1.superfinal p.1.nstates a.nextstate).1 }]))
          (i, acc) =
        ({ i with nstates := ns, calls := cl },
         acc ++ l.map (fun a =>
           applyMapper i.m { a with nextstate := FindOStatePure i.superfinal a.nextstate })) := by
  induction l with
  | nil =>
    intro i acc
    refine ⟨i.nstates, i.calls, ?_⟩
    rw [List.map_nil, List.append_nil]
    rfl
  | cons a t ih =>
    intro i acc
    rw [List.foldl_cons]
    dsimp only
    obtain ⟨ns, cl, h⟩ := ih
      (ArcMapFstImpl.bumpCalls
        { src := i.src, m := i.m, finalAction := i.finalAction, superfinal := i.superfinal,
          nstates := (FindOState i.superfinal i.nstates a.nextstate).2,
          hasStart := i.hasStart, cstart := i.cstart, props := i.props,
          isyms := i.isyms, osyms := i.osyms, finalsC := i.finalsC, arcsC := i.arcsC,
          calls := i.calls })
      (acc ++ [applyMapper i.m
        { a with nextstate := (FindOState i.superfinal i.nstates a.nextstate).1 }])
    refine ⟨ns, cl, ?_⟩
    rw [h, List.map_cons, List.append_assoc]
    rfl

/-- Expand at the superfinal state caches an empty arc list. -/
lemma expandOp_superfinal_spec (wo : Wops V) (i : ArcMapFstImpl V) (s : Int)
    (hs : s = i.superfinal) :
    ArcMapFstImpl.expandOp wo i s = i.setArcsC s [] := by
  unfold ArcMapFstImpl.expandOp
  rw [if_pos hs]

/-- Expand at a non-superfinal state under a policy that adds no superfinal
arc there: the state's cached arcs are exactly the source arcs of the
corresponding input state, mapped with renumbered next states; every other
impl field except the counters is untouched. -/
lemma expandOp_plain_spec (wo : Wops V) (i : ArcMapFstImpl V) (s : Int)
    (hs : ¬ s = i.superfinal)
    (hfa : i.finalAction = MAP_NO_SUPERFINAL ∨
      (i.finalAction = MAP_ALLOW_SUPERFINAL ∧
        finalTriggerB wo i.m i.src (FindIState i.superfinal s) = false)) :
    (ArcMapFstImpl.expandOp wo i s).src = i.src ∧
    (ArcMapFstImpl.expandOp wo i s).m = i.m ∧
    (ArcMapFstImpl.expandOp wo i s).finalAction = i.finalAction ∧
    (ArcMapFstImpl.expandOp wo i s).superfinal = i.superfinal ∧
    (ArcMapFstImpl.expandOp wo i s).cstart = i.cstart ∧
    (ArcMapFstImpl.expandOp wo i s).hasStart = i.hasStart ∧
    (ArcMapFstImpl.expandOp wo i s).finalsC = i.finalsC ∧
    (ArcMapFstImpl.expandOp wo i s).props = i.props ∧
    (ArcMapFstImpl.expandOp wo i s).arcsC = fun t => if t = s then
        some ((i.src.arcsOf (FindIState i.superfinal s)).map
          (fun a => applyMapper i.m
            { a with nextstate := FindOStatePure i.superfinal a.nextstate }))
      else i.arcsC t := by
  unfold ArcMapFstImpl.expandOp
  rw [if_neg hs]
  dsimp only
  obtain ⟨ns, cl, hfold⟩ := expand_arcfold_eq (i.src.arcsOf (FindIState i.superfinal s)) i []
  rw [hfold]
  dsimp only
  rcases hfa with hno | ⟨hallow, htrig⟩
  · rw [hno]
    dsimp only
    rw [ite_self]
    refine ⟨rfl, rfl, rfl, rfl, rfl, rfl, rfl, rfl, ?_⟩
    funext t
    by_cases ht : t = s <;>
      simp [ArcMapFstImpl.setArcsC, ht]
  · rw [hallow]
    dsimp only
    have hlab := (finalTriggerB_false_iff wo i.m i.src (FindIState i.superfinal s)).mp htrig
    split
    · rw [if_neg (by
        rintro (hc | hc)
        · exact hc hlab.1
        · exact hc hlab.2)]
      refine ⟨rfl, rfl, rfl, rfl, rfl, rfl, rfl, rfl, ?_⟩
      funext t
      by_cases ht : t = s <;>
        simp [ArcMapFstImpl.setArcsC, ArcMapFstImpl.bumpCalls, ht]
    · refine ⟨rfl, rfl, rfl, rfl, rfl, rfl, rfl, rfl, ?_⟩
      funext t
      by_cases ht : t = s <;>
        simp [ArcMapFstImpl.setArcsC, ht]

/-- Expand at a non-superfinal state under MAP_REQUIRE_SUPERFINAL and a
still-unresolved final weight: the mapped renumbered source arcs, plus the
superfinal arc when the mapped pseudo-arc is not the epsilon/Zero one. -/
lemma expandOp_require_spec (wo : Wops V) (i : ArcMapFstImpl V) (s : Int)
    (hs : ¬ s = i.superfinal)
    (hnof : i.finalsC s = none)
    (hfa : i.finalAction = MAP_REQUIRE_SUPERFINAL) :
    (ArcMapFstImpl.expandOp wo i s).src = i.src ∧
    (ArcMapFstImpl.expandOp wo i s).m = i.m ∧
    (ArcMapFstImpl.expandOp wo i s).finalAction = i.finalAction ∧
    (ArcMapFstImpl.expandOp wo i s).superfinal = i.superfinal ∧
    (ArcMapFstImpl.expandOp wo i s).cstart = i.cstart ∧
    (ArcMapFstImpl.expandOp wo i s).hasStart = i.hasStart ∧
    (ArcMapFstImpl.expandOp wo i s).finalsC = i.finalsC ∧
    (ArcMapFstImpl.expandOp wo i s).props = i.props ∧
    (ArcMapFstImpl.expandOp wo i s).arcsC = fun t => if t = s then
        some ((i.src.arcsOf (FindIState i.superfinal s)).map
            (fun a => applyMapper i.m
              { a with nextstate := FindOStatePure i.superfinal a.nextstate }) ++
          (if requireArcB wo i.m i.src (FindIState i.superfinal s) = true then
            [⟨(mappedFinalArc wo i.m i.src (FindIState i.superfinal s)).ilabel,
              (mappedFinalArc wo i.m i.src (FindIState i.superfinal s)).olabel,
              (mappedFinalArc wo i.m i.src (FindIState i.superfinal s)).weight,
              i.superfinal⟩] else []))
      else i.arcsC t := by
  unfold ArcMapFstImpl.expandOp
  rw [if_neg hs]
  dsimp only
  obtain ⟨ns, cl, hfold⟩ := expand_arcfold_eq (i.src.arcsOf (FindIState i.superfinal s)) i []
  rw [hfold]
  dsimp only
  rw [hfa]
  dsimp only
  rw [if_pos (Or.inl (by simp [ArcMapFstImpl.HasFinal, hnof]))]
  by_cases hcond : (mappedFinalArc wo i.m i.src (FindIState i.superfinal s)).ilabel ≠ 0 ∨
      (mappedFinalArc wo i.m i.src (FindIState i.superfinal s)).olabel ≠ 0 ∨
      (mappedFinalArc wo i.m i.src (FindIState i.superfinal s)).weight ≠ wo.zero
  · rw [if_pos hcond]
    have hreq : requireArcB wo i.m i.src (FindIState i.superfinal s) = true :=
      (requireArcB_iff wo i.m i.src (FindIState i.superfinal s)).mpr hcond
    refine ⟨rfl, rfl, rfl, rfl, rfl, rfl, rfl, rfl, ?_⟩
    funext t
    by_cases ht : t = s <;>
      simp [ArcMapFstImpl.setArcsC, ArcMapFstImpl.bumpCalls, ht, hreq]
  · rw [if_neg hcond]
    have hreq : requireArcB wo i.m i.src (FindIState i.superfinal s) = false := by
      rw [← Bool.not_eq_true, requireArcB_iff]
      exact hcond
    refine ⟨rfl, rfl, rfl, rfl, rfl, rfl, rfl, rfl, ?_⟩
    funext t
    by_cases ht : t = s <;>
      simp [ArcMapFstImpl.setArcsC, ArcMapFstImpl.bumpCalls, ht, hreq]

/-- Final never touches the arc cache, the bijection data, the cached start
or the copied source. -/
lemma finalOp_fields (wo : Wops V) (i : ArcMapFstImpl V) (s : Int) :
    (ArcMapFstImpl.finalOp wo i s).src = i.src ∧
    (ArcMapFstImpl.finalOp wo i s).m = i.m ∧
    (ArcMapFstImpl.finalOp wo i s).finalAction = i.finalAction ∧
    (ArcMapFstImpl.finalOp wo i s).superfinal = i.superfinal ∧
    (ArcMapFstImpl.finalOp wo i s).cstart = i.cstart ∧
    (ArcMapFstImpl.finalOp wo i s).hasStart = i.hasStart ∧
    (ArcMapFstImpl.finalOp wo i s).arcsC = i.arcsC := by
  unfold ArcMapFstImpl.finalOp
  split
  · exact ⟨rfl, rfl, rfl, rfl, rfl, rfl, rfl⟩
  · split <;> (try dsimp only) <;> (try split) <;> (try split) <;>
      exact ⟨rfl, rfl, rfl, rfl, rfl, rfl, rfl⟩

/-- First Final query under MAP_NO_SUPERFINAL caches the mapped weight. -/
lemma finalOp_no_value (wo : Wops V) (i : ArcMapFstImpl V) (s : Int)
    (hnof : i.finalsC s = none)
    (hfa : i.finalAction = MAP_NO_SUPERFINAL) :
    (ArcMapFstImpl.finalOp wo i s).finalsC = fun t => if t = s then
        some (mappedFinalArc wo i.m i.src (FindIState i.superfinal s)).weight
      else i.finalsC t := by
  unfold ArcMapFstImpl.finalOp
  rw [if_neg (by simp [ArcMapFstImpl.HasFinal, hnof]), hfa]
  dsimp only
  split
  · funext t
    simp [ArcMapFstImpl.setFinalC, ArcMapFstImpl.setPropsI, ArcMapFstImpl.bumpCalls]
  · funext t
    simp [ArcMapFstImpl.setFinalC, ArcMapFstImpl.bumpCalls]

/-- First Final query under MAP_ALLOW_SUPERFINAL at a regular state whose
mapped pseudo-arc keeps epsilon labels caches the mapped weight. -/
lemma finalOp_allow_value (wo : Wops V) (i : ArcMapFstImpl V) (s : Int)
    (hnof : i.finalsC s = none)
    (hs : ¬ s = i.superfinal)
    (hfa : i.finalAction = MAP_ALLOW_SUPERFINAL)
    (htrig : finalTriggerB wo i.m i.src (FindIState i.superfinal s) = false) :
    (ArcMapFstImpl.finalOp wo i s).finalsC = fun t => if t = s then
        some (mappedFinalArc wo i.m i.src (FindIState i.superfinal s)).weight
      else i.finalsC t := by
  unfold ArcMapFstImpl.finalOp
  rw [if_neg (by simp [ArcMapFstImpl.HasFinal, hnof]), hfa]
  dsimp only
  rw [if_neg hs]
  have hlab := (finalTriggerB_false_iff wo i.m i.src (FindIState i.superfinal s)).mp htrig
  rw [if_pos hlab]
  funext t
  simp [ArcMapFstImpl.setFinalC, ArcMapFstImpl.bumpCalls]

/-- First Final query under MAP_REQUIRE_SUPERFINAL caches One at the
superfinal state and Zero everywhere else. -/
lemma finalOp_require_value (wo : Wops V) (i : ArcMapFstImpl V) (s : Int)
    (hnof : i.finalsC s = none)
    (hfa : i.finalAction = MAP_REQUIRE_SUPERFINAL) :
    (ArcMapFstImpl.finalOp wo i s).finalsC = fun t => if t = s then
        some (if s = i.superfinal then wo.one else wo.zero)
      else i.finalsC t := by
  unfold ArcMapFstImpl.finalOp
  rw [if_neg (by simp [ArcMapFstImpl.HasFinal, hnof]), hfa]
  dsimp only
  funext t
  simp [ArcMapFstImpl.setFinalC]

/-- The resolved start of a wrapper over a source with a start state: the
effective final action is the mapper's, the superfinal is pinned at 0
exactly under MAP_REQUIRE_SUPERFINAL, and the cached start is the renumbered
source start. -/
lemma startOp_init_spec (m : ArcMapper V) (fst : FstM V)
    (hstart : fst.start ≠ kNoStateId) :
    ArcMapFstImpl.startOp (ArcMapFstImpl.init m fst) =
      { src := fst, m := m, finalAction := m.finalAction,
        superfinal := if m.finalAction = MAP_REQUIRE_SUPERFINAL then 0 else kNoStateId,
        nstates := (FindOState
          (if m.finalAction = MAP_REQUIRE_SUPERFINAL then 0 else kNoStateId) 0 fst.start).2,
        hasStart := true,
        cstart := FindOStatePure
          (if m.finalAction = MAP_REQUIRE_SUPERFINAL then 0 else kNoStateId) fst.start,
        props := m.propsFn (fst.props &&& kCopyProperties),
        isyms := symsFresh m.isymsAction fst.isyms,
        osyms := symsFresh m.osymsAction fst.osyms,
        finalsC := fun _ => none, arcsC := fun _ => none, calls := 0 } := by
  unfold ArcMapFstImpl.init
  rw [if_neg hstart]
  unfold ArcMapFstImpl.startOp
  rw [if_neg (fun h => Bool.noConfusion h)]
  rfl

/-- Fully expanded lazy wrapper under a policy that creates no superfinal
state: the exposed automaton keeps the source's start and state count, and
every state carries the mapped final weight and the mapped arcs. -/
lemma lazyFst_plain_spec (wo : Wops V) (m : ArcMapper V) (fst : FstM V)
    (h0 : 0 ≤ fst.start)
    (hfa : m.finalAction = MAP_NO_SUPERFINAL ∨
      (m.finalAction = MAP_ALLOW_SUPERFINAL ∧
        ∀ s : Nat, s < fst.numStates → finalTriggerB wo m fst (s : Int) = false)) :
    (ArcMapFstImpl.lazyFst wo m fst).states.length = fst.numStates ∧
    (ArcMapFstImpl.lazyFst wo m fst).start = fst.start ∧
    ∀ s : Nat, s < fst.numStates →
      (ArcMapFstImpl.lazyFst wo m fst).states[s]? =
        some ((mappedFinalArc wo m fst (s : Int)).weight,
          (fst.arcsOf (s : Int)).map (applyMapper m)) := by
  have hstart : fst.start ≠ kNoStateId := by
    unfold kNoStateId
    omega
  have hnreq : ¬ m.finalAction = MAP_REQUIRE_SUPERFINAL := by
    rcases hfa with h | ⟨h, _⟩ <;> rw [h] <;> exact fun hc => by cases hc
  have hi0 := startOp_init_spec m fst hstart
  rw [if_neg hnreq, FindOStatePure_none] at hi0
  have hvisM : ArcMapFstImpl.numVisits wo m fst m.finalAction = fst.numStates := by
    rcases hfa with h | ⟨h, hclean⟩
    · rw [h]
      rfl
    · rw [h]
      unfold ArcMapFstImpl.numVisits
      dsimp only
      rw [if_neg (by
        rw [List.any_eq_true]
        rintro ⟨x, hx, hp⟩
        rw [List.mem_range] at hx
        rw [hclean x hx] at hp
        cases hp)]
      rfl
  have hvisS : ArcMapFstImpl.numVisits wo m fst
      (ArcMapFstImpl.startOp (ArcMapFstImpl.init m fst)).finalAction = fst.numStates := by
    rw [hi0]
    exact hvisM
  have key := foldl_range_ind
    (fun (j : ArcMapFstImpl V) (s : Nat) =>
      ArcMapFstImpl.finalOp wo (ArcMapFstImpl.expandOp wo j (s : Int)) (s : Int))
    (fun k j =>
      j.src = fst ∧ j.m = m ∧ j.finalAction = m.finalAction ∧
      j.superfinal = kNoStateId ∧ j.cstart = fst.start ∧
      (∀ s : Nat, s < k →
        j.finalsC (s : Int) = some (mappedFinalArc wo m fst (s : Int)).weight ∧
        j.arcsC (s : Int) = some ((fst.arcsOf (s : Int)).map (applyMapper m))) ∧
      (∀ t : Int, (∀ s : Nat, s < k → t ≠ (s : Int)) →
        j.finalsC t = none ∧ j.arcsC t = none))
    fst.numStates
    (ArcMapFstImpl.startOp (ArcMapFstImpl.init m fst))
    (by
      rw [hi0]
      refine ⟨rfl, rfl, rfl, rfl, rfl, ?_, ?_⟩
      · intro s hs
        exact absurd hs (Nat.not_lt_zero s)
      · intro t ht
        exact ⟨rfl, rfl⟩)
    (by
      intro k j hk hP
      obtain ⟨j1, j2, j3, j4, j5, jvals, jfresh⟩ := hP
      have hksf : ¬ (k : Int) = j.superfinal := by
        rw [j4]
        unfold kNoStateId
        omega
      have hfa2 : j.finalAction = MAP_NO_SUPERFINAL ∨
          (j.finalAction = MAP_ALLOW_SUPERFINAL ∧
            finalTriggerB wo j.m j.src (FindIState j.superfinal (k : Int)) = false) := by
        rcases hfa with h | ⟨h, hclean⟩
        · exact Or.inl (j3.trans h)
        · refine Or.inr ⟨j3.trans h, ?_⟩
          rw [j1, j2, j4, FindIState_none]
          exact hclean k hk
      obtain ⟨e1, e2, e3, e4, e5, e6, e7, e8, e9⟩ :=
        expandOp_plain_spec wo j (k : Int) hksf hfa2
      have hfree : (ArcMapFstImpl.expandOp wo j (k : Int)).finalsC (k : Int) = none := by
        rw [e7]
        exact (jfresh (k : Int) (fun s hs => by omega)).1
      have hval : (ArcMapFstImpl.finalOp wo (ArcMapFstImpl.expandOp wo j (k : Int))
            (k : Int)).finalsC = fun t => if t = (k : Int) then
          some (mappedFinalArc wo m fst (k : Int)).weight
        else (ArcMapFstImpl.expandOp wo j (k : Int)).finalsC t := by
        rcases hfa with h | ⟨h, hclean⟩
        · have hv := finalOp_no_value wo (ArcMapFstImpl.expandOp wo j (k : Int)) (k : Int)
            hfree (e3.trans (j3.trans h))
          rw [e2, j2, e1, j1, e4, j4, FindIState_none] at hv
          exact hv
        · have hv := finalOp_allow_value wo (ArcMapFstImpl.expandOp wo j (k : Int)) (k : Int)
            hfree (by rw [e4]; exact hksf) (e3.trans (j3.trans h))
            (by rw [e1, e2, e4, j1, j2, j4, FindIState_none]; exact hclean k hk)
          rw [e2, j2, e1, j1, e4, j4, FindIState_none] at hv
          exact hv
      obtain ⟨f1, f2, f3, f4, f5, f6, f7⟩ :=
        finalOp_fields wo (ArcMapFstImpl.expandOp wo j (k : Int)) (k : Int)
      refine ⟨f1.trans (e1.trans j1), f2.trans (e2.trans j2), f3.trans (e3.trans j3),
        f4.trans (e4.trans j4), f5.trans (e5.trans j5), ?_, ?_⟩
      · intro s hs
        by_cases hsk : s = k
        · subst hsk
          constructor
          · rw [congrFun hval (s : Int), if_pos rfl]
          · rw [f7]
            simp only [e9, if_true]
            rw [j1, j2, j4, FindIState_none]
            simp only [FindOStatePure_none]
        · constructor
          · rw [congrFun hval (s : Int),
              if_neg (show ¬ ((s : Nat) : Int) = (k : Int) by omega), e7]
            exact (jvals s (by omega)).1
          · rw [f7]
            simp only [e9]
            rw [if_neg (show ¬ ((s : Nat) : Int) = (k : Int) by omega)]
            exact (jvals s (by omega)).2
      · intro t ht
        constructor
        · rw [congrFun hval t, if_neg (ht k (by omega)), e7]
          exact (jfresh t (fun s hs => ht s (by omega))).1
        · rw [f7]
          simp only [e9]
          rw [if_neg (ht k (by omega))]
          exact (jfresh t (fun s hs => ht s (by omega))).2)
  obtain ⟨k1, k2, k3, k4, k5, kvals, -⟩ := key
  unfold ArcMapFstImpl.lazyFst ArcMapFstImpl.expandAll
  dsimp only
  rw [hvisS]
  rw [k3, hvisM, k5]
  refine ⟨?_, rfl, ?_⟩
  · rw [List.length_map, List.length_range]
  · intro s hs
    rw [List.getElem?_map, List.getElem?_range hs]
    rw [Option.map_some']
    unfold ArcMapFstImpl.cachedFinal ArcMapFstImpl.cachedArcs
    rw [(kvals s hs).1, (kvals s hs).2]
    rfl

/-- Fully expanded lazy wrapper under MAP_REQUIRE_SUPERFINAL: the superfinal
state sits at index 0 with final weight One and no arcs, every copied state
sits one index above its source state with final weight Zero, its regular
arcs mapped with next states shifted by one, plus the superfinal arc (into
index 0) unless the mapped pseudo-arc is the epsilon/Zero one. -/
lemma lazyFst_require_spec (wo : Wops V) (m : ArcMapper V) (fst : FstM V)
    (h0 : 0 ≤ fst.start)
    (harcs : ∀ s : Nat, s < fst.numStates → ∀ a ∈ fst.arcsOf (s : Int), 0 ≤ a.nextstate)
    (hfa : m.finalAction = MAP_REQUIRE_SUPERFINAL) :
    (ArcMapFstImpl.lazyFst wo m fst).states.length = fst.numStates + 1 ∧
    (ArcMapFstImpl.lazyFst wo m fst).start = fst.start + 1 ∧
    (ArcMapFstImpl.lazyFst wo m fst).states[0]? = some (wo.one, ([] : List (Arc V))) ∧
    ∀ s : Nat, s < fst.numStates →
      (ArcMapFstImpl.lazyFst wo m fst).states[s + 1]? =
        some (wo.zero,
          (fst.arcsOf (s : Int)).map
            (fun a => { applyMapper m a with nextstate := a.nextstate + 1 }) ++
          (if requireArcB wo m fst (s : Int) = true then
            [⟨(mappedFinalArc wo m fst (s : Int)).ilabel,
              (mappedFinalArc wo m fst (s : Int)).olabel,
              (mappedFinalArc wo m fst (s : Int)).weight, 0⟩] else [])) := by
  have hstart : fst.start ≠ kNoStateId := by
    unfold kNoStateId
    omega
  have hi0 := startOp_init_spec m fst hstart
  rw [if_pos hfa, FindOStatePure_zero fst.start h0] at hi0
  have hvisM : ArcMapFstImpl.numVisits wo m fst m.finalAction = fst.numStates + 1 := by
    rw [hfa]
    rfl
  have hvisS : ArcMapFstImpl.numVisits wo m fst
      (ArcMapFstImpl.startOp (ArcMapFstImpl.init m fst)).finalAction =
      fst.numStates + 1 := by
    rw [hi0]
    exact hvisM
  have key := foldl_range_ind
    (fun (j : ArcMapFstImpl V) (s : Nat) =>
      ArcMapFstImpl.finalOp wo (ArcMapFstImpl.expandOp wo j (s : Int)) (s : Int))
    (fun k j =>
      j.src = fst ∧ j.m = m ∧ j.finalAction = m.finalAction ∧
      j.superfinal = 0 ∧ j.cstart = fst.start + 1 ∧
      (∀ s : Nat, s < k →
        j.finalsC (s : Int) = some (if s = 0 then wo.one else wo.zero) ∧
        j.arcsC (s : Int) = some (if s = 0 then ([] : List (Arc V)) else
          (fst.arcsOf ((s - 1 : Nat) : Int)).map
            (fun a => { applyMapper m a with nextstate := a.nextstate + 1 }) ++
          (if requireArcB wo m fst ((s - 1 : Nat) : Int) = true then
            [⟨(mappedFinalArc wo m fst ((s - 1 : Nat) : Int)).ilabel,
              (mappedFinalArc wo m fst ((s - 1 : Nat) : Int)).olabel,
              (mappedFinalArc wo m fst ((s - 1 : Nat) : Int)).weight, 0⟩] else []))) ∧
      (∀ t : Int, (∀ s : Nat, s < k → t ≠ (s : Int)) →
        j.finalsC t = none ∧ j.arcsC t = none))
    (fst.numStates + 1)
    (ArcMapFstImpl.startOp (ArcMapFstImpl.init m fst))
    (by
      rw [hi0]
      refine ⟨rfl, rfl, rfl, rfl, rfl, ?_, ?_⟩
      · intro s hs
        exact absurd hs (Nat.not_lt_zero s)
      · intro t ht
        exact ⟨rfl, rfl⟩)
    (by
      intro k j hk hP
      dsimp only
      obtain ⟨j1, j2, j3, j4, j5, jvals, jfresh⟩ := hP
      have hfree0 : j.finalsC (k : Int) = none :=
        (jfresh (k : Int) (fun s hs => by omega)).1
      by_cases hk0 : k = 0
      · subst hk0
        have hsf : ((0 : Nat) : Int) = j.superfinal := by
          rw [j4]
          rfl
        rw [expandOp_superfinal_spec wo j ((0 : Nat) : Int) hsf]
        have hv := finalOp_require_value wo (j.setArcsC ((0 : Nat) : Int) []
            ) ((0 : Nat) : Int) hfree0 (j3.trans hfa)
        obtain ⟨f1, f2, f3, f4, f5, f6, f7⟩ :=
          finalOp_fields wo (j.setArcsC ((0 : Nat) : Int) []) ((0 : Nat) : Int)
        refine ⟨f1.trans j1, f2.trans j2, f3.trans j3, f4.trans j4, f5.trans j5, ?_, ?_⟩
        · intro s hs
          have hs0 : s = 0 := by omega
          subst hs0
          constructor
          · rw [congrFun hv ((0 : Nat) : Int), if_pos rfl,
              if_pos (show ((0 : Nat) : Int) =
                (j.setArcsC ((0 : Nat) : Int) []).superfinal from hsf), if_pos rfl]
          · rw [f7]
            show (if ((0 : Nat) : Int) = ((0 : Nat) : Int) then some ([] : List (Arc V))
                else j.arcsC ((0 : Nat) : Int)) = _
            rw [if_pos rfl, if_pos rfl]
        · intro t ht
          constructor
          · rw [congrFun hv t, if_neg (ht 0 (by omega))]
            exact (jfresh t (fun s hs => ht s (by omega))).1
          · rw [f7]
            show (if t = ((0 : Nat) : Int) then some ([] : List (Arc V)) else j.arcsC t) = _
            rw [if_neg (ht 0 (by omega))]
            exact (jfresh t (fun s hs => ht s (by omega))).2
      · have hksf : ¬ (k : Int) = j.superfinal := by
          rw [j4]
          omega
        obtain ⟨e1, e2, e3, e4, e5, e6, e7, e8, e9⟩ :=
          expandOp_require_spec wo j (k : Int) hksf hfree0 (j3.trans hfa)
        have hfree1 : (ArcMapFstImpl.expandOp wo j (k : Int)).finalsC (k : Int) = none := by
          rw [e7]
          exact hfree0
        have hv := finalOp_require_value wo (ArcMapFstImpl.expandOp wo j (k : Int))
          (k : Int) hfree1 (e3.trans (j3.trans hfa))
        have hk1 : (k : Int) - 1 = ((k - 1 : Nat) : Int) := by omega
        have hval : (ArcMapFstImpl.expandOp wo j (k : Int)).arcsC (k : Int) =
            some ((fst.arcsOf ((k - 1 : Nat) : Int)).map
                (fun a => { applyMapper m a with nextstate := a.nextstate + 1 }) ++
              (if requireArcB wo m fst ((k - 1 : Nat) : Int) = true then
                [⟨(mappedFinalArc wo m fst ((k - 1 : Nat) : Int)).ilabel,
                  (mappedFinalArc wo m fst ((k - 1 : Nat) : Int)).olabel,
                  (mappedFinalArc wo m fst ((k - 1 : Nat) : Int)).weight, 0⟩] else [])) := by
          rw [e9]
          simp only [if_true]
          rw [j1, j2, j4, FindIState_zero (k : Int) (by omega), hk1]
          have hmapfun : (fst.arcsOf ((k - 1 : Nat) : Int)).map
              (fun a => applyMapper m
                { a with nextstate := FindOStatePure 0 a.nextstate }) =
              (fst.arcsOf ((k - 1 : Nat) : Int)).map
                (fun a => { applyMapper m a with nextstate := a.nextstate + 1 }) := by
            refine List.map_congr_left ?_
            intro a ha
            have h0a : 0 ≤ a.nextstate := harcs (k - 1) (by omega) a ha
            rw [FindOStatePure_zero a.nextstate h0a]
            exact applyMapper_shift m a (a.nextstate + 1) (by
              have hA : (a.nextstate + 1 == kNoStateId) = false :=
                beq_eq_false_iff_ne.mpr (by unfold kNoStateId; omega)
              have hB : (a.nextstate == kNoStateId) = false :=
                beq_eq_false_iff_ne.mpr (by unfold kNoStateId; omega)
              rw [hA, hB])
          rw [hmapfun]
        obtain ⟨f1, f2, f3, f4, f5, f6, f7⟩ :=
          finalOp_fields wo (ArcMapFstImpl.expandOp wo j (k : Int)) (k : Int)
        refine ⟨f1.trans (e1.trans j1), f2.trans (e2.trans j2), f3.trans (e3.trans j3),
          f4.trans (e4.trans j4), f5.trans (e5.trans j5), ?_, ?_⟩
        · intro s hs
          by_cases hsk : s = k
          · subst hsk
            constructor
            · rw [congrFun hv (s : Int), if_pos rfl,
                if_neg (by rw [e4, j4]; omega), if_neg hk0]
            · rw [f7, hval, if_neg hk0]
          · constructor
            · rw [congrFun hv (s : Int),
                if_neg (show ¬ ((s : Nat) : Int) = (k : Int) by omega), e7]
              exact (jvals s (by omega)).1
            · rw [f7]
              rw [congrFun e9 (s : Int)]
              show (if ((s : Nat) : Int) = (k : Int) then _ else j.arcsC (s : Int)) = _
              rw [if_neg (show ¬ ((s : Nat) : Int) = (k : Int) by omega)]
              exact (jvals s (by omega)).2
        · intro t ht
          constructor
          · rw [congrFun hv t, if_neg (ht k (by omega)), e7]
            exact (jfresh t (fun s hs => ht s (by omega))).1
          · rw [f7]
            rw [congrFun e9 t]
            show (if t = (k : Int) then _ else j.arcsC t) = _
            rw [if_neg (ht k (by omega))]
            exact (jfresh t (fun s hs => ht s (by omega))).2)
  obtain ⟨k1, k2, k3, k4, k5, kvals, -⟩ := key
  unfold ArcMapFstImpl.lazyFst ArcMapFstImpl.expandAll
  dsimp only
  rw [hvisS]
  rw [k3, hvisM, k5]
  refine ⟨?_, rfl, ?_, ?_⟩
  · rw [List.length_map, List.length_range]
  · rw [List.getElem?_map, List.getElem?_range (by omega : 0 < fst.numStates + 1)]
    rw [Option.map_some']
    unfold ArcMapFstImpl.cachedFinal ArcMapFstImpl.cachedArcs
    rw [(kvals 0 (by omega)).1, (kvals 0 (by omega)).2]
    rfl
  · intro s hs
    rw [List.getElem?_map, List.getElem?_range (by omega : s + 1 < fst.numStates + 1)]
    rw [Option.map_some']
    unfold ArcMapFstImpl.cachedFinal ArcMapFstImpl.cachedArcs
    rw [(kvals (s + 1) (by omega)).1, (kvals (s + 1) (by omega)).2]
    simp only [Nat.add_sub_cancel]
    rw [if_neg (Nat.succ_ne_zero s), if_neg (Nat.succ_ne_zero s)]
    rfl

/-- Resolved start of a wrapper over a startless source: Init has forced
MAP_NO_SUPERFINAL and the null-FST property word, and the cached start is
the (identity-renumbered) absent source start. -/
lemma startOp_init_startless (m : ArcMapper V) (fst : FstM V)
    (hstart : fst.start = kNoStateId) :
    ArcMapFstImpl.startOp (ArcMapFstImpl.init m fst) =
      { src := fst, m := m, finalAction := MAP_NO_SUPERFINAL, superfinal := kNoStateId,
        nstates := (FindOState kNoStateId 0 fst.start).2, hasStart := true,
        cstart := FindOStatePure kNoStateId fst.start,
        props := kNullProperties,
        isyms := symsFresh m.isymsAction fst.isyms,
        osyms := symsFresh m.osymsAction fst.osyms,
        finalsC := fun _ => none, arcsC := fun _ => none, calls := 0 } := by
  unfold ArcMapFstImpl.init
  rw [if_pos hstart]
  unfold ArcMapFstImpl.startOp
  rw [if_neg (fun h => Bool.noConfusion h)]
  rfl

end LazySpecs

/-! Claim theorems about the lazy wrapper over a startless source and about
eager/lazy agreement. -/

section ClaimC10

variable {V : Type} [DecidableEq V]

/-- C10 (corrected): a lazy ArcMapFst over a source with no start state
forces the effective final action to MAP_NO_SUPERFINAL and installs the
null-FST property mask at construction, and the fully expanded wrapper never
creates a superfinal state and exposes no start state - but it still
enumerates one wrapper state per source state, so the exposed automaton is
empty only when the source has no states. -/
theorem arcmap_startless_lazy (wo : Wops V) (m : ArcMapper V) (fst : FstM V)
    (hstart : fst.start = kNoStateId) :
    (ArcMapFstImpl.init m fst).finalAction = MAP_NO_SUPERFINAL ∧
    (ArcMapFstImpl.init m fst).props = kNullProperties ∧
    (ArcMapFstImpl.expandAll wo m fst).superfinal = kNoStateId ∧
    (ArcMapFstImpl.lazyFst wo m fst).start = kNoStateId ∧
    (ArcMapFstImpl.lazyFst wo m fst).numStates = fst.numStates := by
  have hi0 := startOp_init_startless m fst hstart
  rw [FindOStatePure_none, hstart] at hi0
  have hvisM : ArcMapFstImpl.numVisits wo m fst MAP_NO_SUPERFINAL = fst.numStates := rfl
  have hvisS : ArcMapFstImpl.numVisits wo m fst
      (ArcMapFstImpl.startOp (ArcMapFstImpl.init m fst)).finalAction = fst.numStates := by
    rw [hi0]
    exact hvisM
  have key := foldl_range_ind
    (fun (j : ArcMapFstImpl V) (s : Nat) =>
      ArcMapFstImpl.finalOp wo (ArcMapFstImpl.expandOp wo j (s : Int)) (s : Int))
    (fun k j => j.finalAction = MAP_NO_SUPERFINAL ∧ j.superfinal = kNoStateId ∧
      j.cstart = kNoStateId)
    fst.numStates
    (ArcMapFstImpl.startOp (ArcMapFstImpl.init m fst))
    (by
      rw [hi0]
      exact ⟨rfl, rfl, rfl⟩)
    (by
      intro k j hk hP
      dsimp only
      obtain ⟨j1, j2, j3⟩ := hP
      have hksf : ¬ (k : Int) = j.superfinal := by
        rw [j2]
        unfold kNoStateId
        omega
      obtain ⟨e1, e2, e3, e4, e5, e6, e7, e8, e9⟩ :=
        expandOp_plain_spec wo j (k : Int) hksf (Or.inl j1)
      obtain ⟨f1, f2, f3, f4, f5, f6, f7⟩ :=
        finalOp_fields wo (ArcMapFstImpl.expandOp wo j (k : Int)) (k : Int)
      exact ⟨f3.trans (e3.trans j1), f4.trans (e4.trans j2), f5.trans (e5.trans j3)⟩)
  obtain ⟨k1, k2, k3⟩ := key
  refine ⟨?_, ?_, ?_, ?_, ?_⟩
  · unfold ArcMapFstImpl.init
    rw [if_pos hstart]
  · unfold ArcMapFstImpl.init
    rw [if_pos hstart]
  · unfold ArcMapFstImpl.expandAll
    dsimp only
    rw [hvisS]
    exact k2
  · unfold ArcMapFstImpl.lazyFst ArcMapFstImpl.expandAll
    dsimp only
    rw [hvisS]
    exact k3
  · rw [FstM.numStates_eq_length]
    unfold ArcMapFstImpl.lazyFst ArcMapFstImpl.expandAll
    dsimp only
    rw [hvisS, k1, hvisM, List.length_map, List.length_range]

/-- Witness for C10 at the startless one-state fixture with a
require-superfinal mapper. -/
theorem arcmap_startless_lazy_witness :
    (ArcMapFstImpl.init requireMapper fstStartless).finalAction = MAP_NO_SUPERFINAL ∧
    (ArcMapFstImpl.init requireMapper fstStartless).props = kNullProperties ∧
    (ArcMapFstImpl.expandAll natW requireMapper fstStartless).superfinal = kNoStateId ∧
    (ArcMapFstImpl.lazyFst natW requireMapper fstStartless).start = kNoStateId ∧
    (ArcMapFstImpl.lazyFst natW requireMapper fstStartless).numStates =
      fstStartless.numStates :=
  arcmap_startless_lazy natW requireMapper fstStartless (by decide)

/-- Counterexample for C10 as stated: the wrapper over the startless
one-state source still exposes one state, not an empty automaton. -/
theorem arcmap_startless_lazy_cex :
    fstStartless.start = kNoStateId ∧
    fstStartless.numStates = 1 ∧
    (ArcMapFstImpl.lazyFst natW requireMapper fstStartless).numStates = 1 ∧
    ¬ (ArcMapFstImpl.lazyFst natW requireMapper fstStartless).numStates = 0 := by
  decide

end ClaimC10

section ClaimC1

variable {V : Type} [DecidableEq V]

lemma map_nextstate_id (xs : List (Arc V)) :
    xs.map (fun a => ({ a with nextstate := a.nextstate } : Arc V)) = xs := by
  induction xs with
  | nil => rfl
  | cons a t ih => rw [List.map_cons, ih]

/-- C1 (corrected): on a well-formed source with a start state, the eager
copying ArcMap and the fully expanded lazy wrapper agree - same state count
and, through the superfinal index translation (identity except under
MAP_REQUIRE_SUPERFINAL, where the lazy wrapper pins the superfinal at 0 and
the eager copy appends it after the n copied states), same start, same final
weight, and the same arc list once next states are translated - for the
policies that never create a superfinal state mid-expansion (always
MAP_NO_SUPERFINAL and MAP_REQUIRE_SUPERFINAL, and MAP_ALLOW_SUPERFINAL when
no state's mapped pseudo-arc carries a non-epsilon label; under
MAP_ALLOW_SUPERFINAL with such a state the two outputs genuinely differ). -/
theorem arcmap_eager_lazy_agree (wo : Wops V) (m : ArcMapper V) (fst : FstM V)
    (hwf : fst.WF)
    (hstart : fst.start ≠ kNoStateId)
    (hfa : m.finalAction = MAP_NO_SUPERFINAL ∨
      (m.finalAction = MAP_ALLOW_SUPERFINAL ∧
        ∀ s : Nat, s < fst.numStates → finalTriggerB wo m fst (s : Int) = false) ∨
      m.finalAction = MAP_REQUIRE_SUPERFINAL) :
    (ArcMapCopy wo m fst).numStates = (ArcMapFstImpl.lazyFst wo m fst).numStates ∧
    (ArcMapCopy wo m fst).start =
      superfinalShift m.finalAction fst.numStates (ArcMapFstImpl.lazyFst wo m fst).start ∧
    ∀ o : Nat, o < (ArcMapFstImpl.lazyFst wo m fst).numStates →
      (ArcMapCopy wo m fst).finalW wo
          (superfinalShift m.finalAction fst.numStates (o : Int)) =
        (ArcMapFstImpl.lazyFst wo m fst).finalW wo (o : Int) ∧
      (ArcMapCopy wo m fst).arcsOf
          (superfinalShift m.finalAction fst.numStates (o : Int)) =
        ((ArcMapFstImpl.lazyFst wo m fst).arcsOf (o : Int)).map
          (fun a =>
            { a with nextstate := superfinalShift m.finalAction fst.numStates a.nextstate }) := by
  obtain ⟨hs0, harcs0⟩ := hwf
  obtain ⟨h0, hltn⟩ : 0 ≤ fst.start ∧ fst.start < (fst.numStates : Int) := by
    rcases hs0 with h | h
    · exact absurd h hstart
    · exact h
  have harcs : ∀ s : Nat, s < fst.numStates →
      ∀ a ∈ fst.arcsOf (s : Int), 0 ≤ a.nextstate := by
    intro s hs a ha
    rw [FstM.numStates_eq_length] at hs
    obtain ⟨w, as, hw⟩ : ∃ w as, fst.states[s]? = some (w, as) := by
      rcases hx : fst.states[s]? with _ | ⟨w, as⟩
      · rw [List.getElem?_eq_none_iff] at hx
        omega
      · exact ⟨w, as, rfl⟩
    rw [FstM.arcsOf_nat fst s w as hw] at ha
    exact (harcs0 (w, as) (List.getElem?_mem hw) a ha).1
  have plainMain : (m.finalAction = MAP_NO_SUPERFINAL ∨
      (m.finalAction = MAP_ALLOW_SUPERFINAL ∧
        ∀ s : Nat, s < fst.numStates → finalTriggerB wo m fst (s : Int) = false)) →
      ((ArcMapCopy wo m fst).numStates = (ArcMapFstImpl.lazyFst wo m fst).numStates ∧
      (ArcMapCopy wo m fst).start =
        superfinalShift m.finalAction fst.numStates
          (ArcMapFstImpl.lazyFst wo m fst).start ∧
      ∀ o : Nat, o < (ArcMapFstImpl.lazyFst wo m fst).numStates →
        (ArcMapCopy wo m fst).finalW wo
            (superfinalShift m.finalAction fst.numStates (o : Int)) =
          (ArcMapFstImpl.lazyFst wo m fst).finalW wo (o : Int) ∧
        (ArcMapCopy wo m fst).arcsOf
            (superfinalShift m.finalAction fst.numStates (o : Int)) =
          ((ArcMapFstImpl.lazyFst wo m fst).arcsOf (o : Int)).map
            (fun a =>
            { a with nextstate := superfinalShift m.finalAction fst.numStates a.nextstate })) := by
    intro hplain
    have hnreq : ¬ m.finalAction = MAP_REQUIRE_SUPERFINAL := by
      rcases hplain with h | ⟨h, _⟩ <;> rw [h] <;> exact fun hc => by cases hc
    have hplainE : m.finalAction = MAP_NO_SUPERFINAL ∨
        (m.finalAction = MAP_ALLOW_SUPERFINAL ∧
          ∀ s : Nat, s < fst.states.length → finalTriggerB wo m fst (s : Int) = false) := by
      rcases hplain with h | ⟨h, hc⟩
      · exact Or.inl h
      · exact Or.inr ⟨h, fun s hs => hc s (by rw [FstM.numStates_eq_length]; exact hs)⟩
    obtain ⟨elen, estart, eslots⟩ := ArcMapCopy_plain_spec wo m fst hstart hplainE
    obtain ⟨llen, lstart, lslots⟩ := lazyFst_plain_spec wo m fst h0 hplain
    have hσ : ∀ x : Int, superfinalShift m.finalAction fst.numStates x = x := by
      intro x
      unfold superfinalShift
      rw [if_neg hnreq]
    refine ⟨?_, ?_, ?_⟩
    · simp only [FstM.numStates_eq_length]
      rw [elen, llen, FstM.numStates_eq_length]
    · rw [hσ, lstart]
      exact estart h0 (by rw [← FstM.numStates_eq_length]; exact hltn)
    · intro o ho
      rw [FstM.numStates_eq_length, llen] at ho
      have hoE : o < fst.states.length := by
        rw [← FstM.numStates_eq_length]
        exact ho
      constructor
      · rw [hσ]
        rw [FstM.finalW_nat _ wo o _ _ (eslots o hoE),
          FstM.finalW_nat _ wo o _ _ (lslots o ho)]
      · rw [hσ]
        rw [FstM.arcsOf_nat _ o _ _ (eslots o hoE),
          FstM.arcsOf_nat _ o _ _ (lslots o ho)]
        simp only [hσ, map_nextstate_id]
  rcases hfa with hno | hallow | hreq
  · exact plainMain (Or.inl hno)
  · exact plainMain (Or.inr hallow)
  · obtain ⟨elen, estart, eslotN, eslots⟩ := ArcMapCopy_require_spec wo m fst hstart hreq
    obtain ⟨llen, lstart, lslot0, lslots⟩ := lazyFst_require_spec wo m fst h0 harcs hreq
    have hσtop : ∀ x : Int, superfinalShift m.finalAction fst.numStates x =
        (if x = 0 then (fst.numStates : Int) else x - 1) := by
      intro x
      unfold superfinalShift
      rw [if_pos hreq]
    refine ⟨?_, ?_, ?_⟩
    · simp only [FstM.numStates_eq_length]
      rw [elen, llen, FstM.numStates_eq_length]
    · rw [hσtop, lstart, if_neg (by omega)]
      rw [estart h0 (by rw [← FstM.numStates_eq_length]; exact hltn)]
      omega
    · intro o ho
      rw [FstM.numStates_eq_length, llen] at ho
      rcases Nat.eq_zero_or_pos o with ho0 | hopos
      · subst ho0
        constructor
        · rw [hσtop, if_pos (by omega), FstM.numStates_eq_length,
            FstM.finalW_nat _ wo fst.states.length _ _ eslotN,
            FstM.finalW_nat _ wo 0 _ _ lslot0]
        · rw [hσtop, if_pos (by omega), FstM.numStates_eq_length,
            FstM.arcsOf_nat _ fst.states.length _ _ eslotN,
            FstM.arcsOf_nat _ 0 _ _ lslot0, List.map_nil]
      · obtain ⟨s, rfl⟩ : ∃ s, o = s + 1 := ⟨o - 1, by omega⟩
        have hs : s < fst.numStates := by omega
        have hsE : s < fst.states.length := by
          rw [← FstM.numStates_eq_length]
          exact hs
        have hcast : ((s + 1 : Nat) : Int) - 1 = ((s : Nat) : Int) := by omega
        constructor
        · rw [hσtop, if_neg (by omega), hcast,
            FstM.finalW_nat _ wo s _ _ (eslots s hsE),
            FstM.finalW_nat _ wo (s + 1) _ _ (lslots s hs)]
        · rw [hσtop, if_neg (by omega), hcast,
            FstM.arcsOf_nat _ s _ _ (eslots s hsE),
            FstM.arcsOf_nat _ (s + 1) _ _ (lslots s hs)]
          rw [List.map_append]
          have hpart1 : ((fst.arcsOf (s : Int)).map
              (fun a => { applyMapper m a with nextstate := a.nextstate + 1 })).map
                (fun a =>
            { a with nextstate := superfinalShift m.finalAction fst.numStates a.nextstate }) =
              (fst.arcsOf (s : Int)).map (applyMapper m) := by
            rw [List.map_map]
            refine List.map_congr_left ?_
            intro a ha
            have h0a : 0 ≤ a.nextstate := harcs s hs a ha
            simp only [Function.comp_apply]
            rw [hσtop, if_neg (by omega)]
            have hsub : a.nextstate + 1 - 1 = a.nextstate := by omega
            rw [hsub]
            rfl
          have hpart2 : ((if requireArcB wo m fst (s : Int) = true then
                [⟨(mappedFinalArc wo m fst (s : Int)).ilabel,
                  (mappedFinalArc wo m fst (s : Int)).olabel,
                  (mappedFinalArc wo m fst (s : Int)).weight, 0⟩]
              else ([] : List (Arc V)))).map
                (fun a =>
            { a with nextstate := superfinalShift m.finalAction fst.numStates a.nextstate }) =
              (if requireArcB wo m fst (s : Int) = true then
                [⟨(mappedFinalArc wo m fst (s : Int)).ilabel,
                  (mappedFinalArc wo m fst (s : Int)).olabel,
                  (mappedFinalArc wo m fst (s : Int)).weight,
                  (fst.states.length : Int)⟩]
              else ([] : List (Arc V))) := by
            by_cases hc : requireArcB wo m fst (s : Int) = true
            · rw [if_pos hc, if_pos hc]
              simp only [List.map_cons, List.map_nil]
              rw [hσtop, if_pos rfl, FstM.numStates_eq_length]
            · rw [if_neg hc, if_neg hc, List.map_nil]
          rw [hpart1, hpart2]

/-- Witness for C1 at a concrete two-state cyclic automaton mapped with the
require-superfinal identity mapper. -/
theorem arcmap_eager_lazy_agree_witness :
    (ArcMapCopy natW requireMapper fstCycle).numStates =
      (ArcMapFstImpl.lazyFst natW requireMapper fstCycle).numStates ∧
    (ArcMapCopy natW requireMapper fstCycle).start =
      superfinalShift requireMapper.finalAction fstCycle.numStates
        (ArcMapFstImpl.lazyFst natW requireMapper fstCycle).start ∧
    ∀ o : Nat, o < (ArcMapFstImpl.lazyFst natW requireMapper fstCycle).numStates →
      (ArcMapCopy natW requireMapper fstCycle).finalW natW
          (superfinalShift requireMapper.finalAction fstCycle.numStates (o : Int)) =
        (ArcMapFstImpl.lazyFst natW requireMapper fstCycle).finalW natW (o : Int) ∧
      (ArcMapCopy natW requireMapper fstCycle).arcsOf
          (superfinalShift requireMapper.finalAction fstCycle.numStates (o : Int)) =
        ((ArcMapFstImpl.lazyFst natW requireMapper fstCycle).arcsOf (o : Int)).map
          (fun a =>
            { a with nextstate :=
                superfinalShift requireMapper.finalAction fstCycle.numStates a.nextstate }) :=
  arcmap_eager_lazy_agree natW requireMapper fstCycle (by decide) (by decide)
    (Or.inr (Or.inr rfl))

/-- Counterexample for C1 as stated over every policy: under
MAP_ALLOW_SUPERFINAL with a final weight mapping to a labelled pseudo-arc,
the eager copy and the fully expanded lazy wrapper disagree - same state
count, but different total arc counts, and state 1 carries different final
weights (the lazy wrapper reuses a live output index for its superfinal
state). -/
theorem arcmap_eager_lazy_cex :
    allowMapper.finalAction = MAP_ALLOW_SUPERFINAL ∧
    (ArcMapCopy natW allowMapper fstTwoFinals).numStates =
      (ArcMapFstImpl.lazyFst natW allowMapper fstTwoFinals).numStates ∧
    FstM.CountArcs (ArcMapCopy natW allowMapper fstTwoFinals) = 1 ∧
    FstM.CountArcs (ArcMapFstImpl.lazyFst natW allowMapper fstTwoFinals) = 2 ∧
    (ArcMapCopy natW allowMapper fstTwoFinals).finalW natW 1 = 0 ∧
    (ArcMapFstImpl.lazyFst natW allowMapper fstTwoFinals).finalW natW 1 = 1 := by
  decide

end ClaimC1

end OpenFst
